import Mathlib

/-!
Shallow embedding of the question-bank validation and scoring engine of
`src/App.tsx` (a client-side personality-assessment tool), together with
theorems checking its natural-language specification against the code.

Conventions of the embedding:
* JavaScript numbers are modelled as rationals (`ℚ`); a separate `JsNum`
  type carries the non-finite values (`NaN`, `±Infinity`) where the code
  tests `Number.isFinite`.
* `Math.round` is modelled as `⌊x + 1/2⌋`, which is JS round-half-toward-+∞.
* Integer percent values are `ℤ`.
* `Record<string, T>` values are modelled as association lists or lookup
  functions returning `Option`; `w[k] ?? 0` becomes `(lookup k).getD 0`.
* JS `Array.prototype.sort` (stable since ES2019) with comparator
  `(a, b) => b.percent - a.percent` is modelled by a stable insertion sort
  descending on `percent`.
* The impure `createdAt` timestamp field and DOM/URL side effects are
  outside the embedding.
-/

namespace MbtiApp

/-- Model of a JavaScript number: either a finite value (as a rational) or
one of the non-finite values `NaN`, `Infinity`, `-Infinity`. -/
inductive JsNum where
  | finite (q : ℚ)
  | nan
  | inf
  | negInf
deriving DecidableEq

/-- `Number.isFinite`. -/
def JsNum.isFinite : JsNum → Bool
  | .finite _ => true
  | _ => false

/-- Model of a parsed JSON / arbitrary JavaScript value (the validator's
`unknown` input).  `undefined` models `undefined`. -/
inductive JsValue where
  | undefined
  | null
  | bool (b : Bool)
  | num (n : JsNum)
  | str (s : String)
  | arr (xs : List JsValue)
  | obj (fields : List (String × JsValue))

/-- JS property access `v[key]` for a non-index string key, as used by the
validator: field lookup on objects, `undefined` on every other value
(arrays carry no such named properties here). -/
def JsValue.getField : JsValue → String → JsValue
  | .obj fields, k => (fields.lookup k).getD .undefined
  | _, _ => .undefined

/-- JS truthiness. -/
def JsValue.truthy : JsValue → Bool
  | .undefined => false
  | .null => false
  | .bool b => b
  | .num (.finite q) => q != 0
  | .num .nan => false
  | .num .inf => true
  | .num .negInf => true
  | .str s => s != ""
  | .arr _ => true
  | .obj _ => true

/-- `typeof v === "object"` (true for objects, arrays and `null`). -/
def JsValue.typeofObject : JsValue → Bool
  | .null => true
  | .arr _ => true
  | .obj _ => true
  | _ => false

/-- `v === null`. -/
def JsValue.isNull : JsValue → Bool
  | .null => true
  | _ => false

/-- `typeof v === "string"` paired with the string payload. -/
def JsValue.asString : JsValue → Option String
  | .str s => some s
  | _ => none

/-- JS decimal printing of a finite number.  Faithful for the integral values
the claims exercise; for non-integral rationals (which a binary float prints
as its shortest round-tripping decimal) the rational's own notation is used
as an approximation. -/
def ratToString (q : ℚ) : String :=
  if q.den = 1 then toString q.num else toString q

mutual

/-- JS `String(v)` coercion, used for `dimensions.map((d) => String(d))`. -/
def jsToString : JsValue → String
  | .undefined => "undefined"
  | .null => "null"
  | .bool true => "true"
  | .bool false => "false"
  | .num (.finite q) => ratToString q
  | .num .nan => "NaN"
  | .num .inf => "Infinity"
  | .num .negInf => "-Infinity"
  | .str s => s
  | .arr xs => jsArrToString xs
  | .obj _ => "[object Object]"

/-- `Array.prototype.toString`: elements joined by `","`, with `null` and
`undefined` elements printed as the empty string. -/
def jsArrToString : List JsValue → String
  | [] => ""
  | [x] => jsElemToString x
  | x :: y :: xs => jsElemToString x ++ "," ++ jsArrToString (y :: xs)

/-- One array element under `Array.prototype.toString`. -/
def jsElemToString : JsValue → String
  | .undefined => ""
  | .null => ""
  | v => jsToString v

end

/-- `Math.round`: round half toward positive infinity. -/
def jsRound (x : ℚ) : ℤ := ⌊x + 1 / 2⌋

-- ================= Data model (`src/App.tsx` type definitions) =================

/-- `type PersonalityModel`. -/
inductive PersonalityModel where
  | MBTI
  | BigFive
  | Enneagram
  | Eysenck
  | FPA
deriving DecidableEq

/-- `interface Choice` with `weights: ChoiceWeights`
(`Record<string, number>`), as an association list. -/
structure Choice where
  label : String
  weights : List (String × ℚ)
deriving DecidableEq

/-- `choice.weights[dim] ?? 0`. -/
def Choice.weight (c : Choice) (dim : String) : ℚ :=
  (c.weights.lookup dim).getD 0

/-- `interface Question`. -/
structure Question where
  id : String
  text : String
  choices : List Choice
deriving DecidableEq

/-- `interface QuestionBankMetadata`. -/
structure QuestionBankMetadata where
  title : String
  version : String
  language : String
  model : PersonalityModel
deriving DecidableEq

/-- `interface QuestionBank`.  `interpretations` is passthrough content,
opaque to scoring (`undefined` when omitted). -/
structure QuestionBank where
  metadata : QuestionBankMetadata
  dimensions : List String
  interpretations : JsValue
  questions : List Question

/-- The `answers` record handed to the scoring functions
(`Record<string, number>` lookup; `none` when the id is absent). -/
abbrev Answers := String → Option ℤ

/-- `q.choices[i]`: JS array indexing, `undefined` when out of range. -/
def choiceAt (cs : List Choice) (i : ℤ) : Option Choice :=
  if 0 ≤ i then cs.get? i.toNat else none

/-- The choice recorded for a question, when its id maps to a defined,
in-range index (`answers[q.id]` guarded by the two `continue`s of each
scoring loop). -/
def answeredChoice (answers : Answers) (q : Question) : Option Choice :=
  match answers q.id with
  | none => none
  | some i => choiceAt q.choices i

-- ================= MBTI =================

/-- `type DimensionKey`. -/
inductive DimKey where
  | E | I | S | N | T | F | J | P | A | Turb | H | C
deriving DecidableEq

/-- The dimension-key string of a `DimensionKey` (they are string literals
in the source). -/
def DimKey.str : DimKey → String
  | .E => "E"
  | .I => "I"
  | .S => "S"
  | .N => "N"
  | .T => "T"
  | .F => "F"
  | .J => "J"
  | .P => "P"
  | .A => "A"
  | .Turb => "Turb"
  | .H => "H"
  | .C => "C"

/-- `CORE_DIM_KEYS`. -/
def CORE_DIM_KEYS : List DimKey := [.E, .I, .S, .N, .T, .F, .J, .P]

/-- `EXT_DIM_KEYS`. -/
def EXT_DIM_KEYS : List DimKey := [.A, .Turb, .H, .C]

/-- `ALL_DIM_KEYS`. -/
def ALL_DIM_KEYS : List DimKey := CORE_DIM_KEYS ++ EXT_DIM_KEYS

/-- `PairScore["key"]`. -/
inductive PairKey where
  | EI | SN | TF | JP | AT | HC
deriving DecidableEq

/-- `interface PairScore`. -/
structure PairScore where
  key : PairKey
  left : DimKey
  right : DimKey
  leftLabel : String
  rightLabel : String
  leftScore : ℚ
  rightScore : ℚ
  leftPercent : ℤ
  rightPercent : ℤ
deriving DecidableEq

/-- One entry of the `corePairConfigs` / `extendedPairConfigs` literals. -/
structure PairConfig where
  key : PairKey
  left : DimKey
  right : DimKey
  leftLabel : String
  rightLabel : String
deriving DecidableEq

/-- `corePairConfigs` (the same literal appears in `computeMbtiResult` and
`buildNeutralPairScores`). -/
def corePairConfigs : List PairConfig :=
  [⟨.EI, .E, .I, "外向 (E)", "内向 (I)"⟩,
   ⟨.SN, .S, .N, "实感 (S)", "直觉 (N)"⟩,
   ⟨.TF, .T, .F, "思考 (T)", "情感 (F)"⟩,
   ⟨.JP, .J, .P, "判断 (J)", "感知 (P)"⟩]

/-- `extendedPairConfigs` (also the literal of
`buildNeutralExtendedPairScores`). -/
def extendedPairConfigs : List PairConfig :=
  [⟨.AT, .A, .Turb, "自信 (A)", "敏感 (T)"⟩,
   ⟨.HC, .H, .C, "活跃 (H)", "沉稳 (C)"⟩]

/-- `createEmptyRawScores` (a record with every dimension key present and
zero). -/
def createEmptyRawScores : DimKey → ℚ := fun _ => 0

/-- The per-question step of the accumulation loop in `computeMbtiResult`:
skip silently unless the answer holds a defined, in-range choice index;
otherwise count the question and add the choice's weight for every key of
`ALL_DIM_KEYS` (i.e. every `DimKey`). -/
def mbtiStep (answers : Answers) (acc : (DimKey → ℚ) × ℕ) (q : Question) :
    (DimKey → ℚ) × ℕ :=
  match answeredChoice answers q with
  | none => acc
  | some c => (fun d => acc.1 d + c.weight d.str, acc.2 + 1)

/-- The raw-score/`answeredCount` accumulation loop of `computeMbtiResult`. -/
def mbtiAccumulate (bank : QuestionBank) (answers : Answers) :
    (DimKey → ℚ) × ℕ :=
  bank.questions.foldl (mbtiStep answers) (createEmptyRawScores, 0)

/-- The pair-score construction shared by the two `map`s in
`computeMbtiResult`:
`leftPercent = total > 0 ? Math.round((leftScore / total) * 100) : 50`,
`rightPercent = 100 - leftPercent`. -/
def mkPairScore (scores : DimKey → ℚ) (cfg : PairConfig) : PairScore :=
  let leftScore := scores cfg.left
  let rightScore := scores cfg.right
  let total := leftScore + rightScore
  let leftPercent : ℤ := if total > 0 then jsRound (leftScore / total * 100) else 50
  let rightPercent : ℤ := 100 - leftPercent
  { key := cfg.key, left := cfg.left, right := cfg.right,
    leftLabel := cfg.leftLabel, rightLabel := cfg.rightLabel,
    leftScore := leftScore, rightScore := rightScore,
    leftPercent := leftPercent, rightPercent := rightPercent }

/-- `interface MBTIResult` (sans the impure `createdAt`). -/
structure MBTIResult where
  type : String
  displayType : String
  pairScores : List PairScore
  extendedPairScores : List PairScore
  rawScores : DimKey → ℚ
  answeredCount : ℕ
  totalQuestions : ℕ
  bankMetadata : QuestionBankMetadata

/-- `computeMbtiResult`. -/
def computeMbtiResult (bank : QuestionBank) (answers : Answers) : MBTIResult :=
  let acc := mbtiAccumulate bank answers
  let scores := acc.1
  let answeredCount := acc.2
  let pairScores := corePairConfigs.map (mkPairScore scores)
  let extendedPairScores := extendedPairConfigs.map (mkPairScore scores)
  let letters := pairScores.map (fun p =>
    if p.leftScore = 0 ∧ p.rightScore = 0 then p.left
    else if p.leftScore ≥ p.rightScore then p.left else p.right)
  let type := String.join (letters.map DimKey.str)
  let hasExtendedDimsInBank :=
    bank.dimensions.contains "A" && bank.dimensions.contains "Turb" &&
      bank.dimensions.contains "H" && bank.dimensions.contains "C"
  let atPair := extendedPairScores.find? (fun p => p.key == PairKey.AT)
  let hcPair := extendedPairScores.find? (fun p => p.key == PairKey.HC)
  let hasATValid : Bool :=
    match atPair with
    | some p => p.leftScore != 0 || p.rightScore != 0
    | none => false
  let hasHCValid : Bool :=
    match hcPair with
    | some p => p.leftScore != 0 || p.rightScore != 0
    | none => false
  let displayType :=
    match atPair, hcPair with
    | some ap, some hp =>
        if hasExtendedDimsInBank && hasATValid && hasHCValid then
          type ++ (if ap.leftScore ≥ ap.rightScore then "A" else "T") ++
            (if hp.leftScore ≥ hp.rightScore then "H" else "C")
        else type
    | _, _ => type
  { type := type, displayType := displayType,
    pairScores := pairScores, extendedPairScores := extendedPairScores,
    rawScores := scores, answeredCount := answeredCount,
    totalQuestions := bank.questions.length, bankMetadata := bank.metadata }

-- ================= Stable sort (JS `Array.prototype.sort`) =================

/-- Stable insertion into a list already sorted descending by `p`: the
inserted element goes before later-positioned elements of equal rank. -/
def insertDescBy (p : α → ℤ) (x : α) : List α → List α
  | [] => [x]
  | y :: ys => if p x ≥ p y then x :: y :: ys else y :: insertDescBy p x ys

/-- Observable behaviour of `[...l].sort((a, b) => p(b) - p(a))`
(JS sort is stable, ES2019). -/
def sortDescBy (p : α → ℤ) : List α → List α
  | [] => []
  | x :: xs => insertDescBy p x (sortDescBy p xs)

-- ================= Share-of-maximum trait models =================

/-- The trait-score record shape shared by `BigFiveTraitScore`,
`FPATraitScore` and `EnneagramTraitScore` (they differ only in the key
type). -/
structure TraitScore (κ : Type) where
  key : κ
  label : String
  score : ℚ
  percent : ℤ
deriving DecidableEq

/-- The inner loop of each theoretical-maximum pass:
`let localMax = 0; for (choice of q.choices) if (v > localMax) localMax = v`. -/
def questionLocalMax (q : Question) (dim : String) : ℚ :=
  q.choices.foldl (fun m c => if c.weight dim > m then c.weight dim else m) 0

/-- `maxScores[dim]` after the theoretical-maximum loop: the per-question
local maxima summed over all questions, independent of the answers. -/
def theoreticalMax (bank : QuestionBank) (dim : String) : ℚ :=
  bank.questions.foldl (fun acc q => acc + questionLocalMax q dim) 0

-- ================= Big Five =================

/-- `BigFiveTraitScore["key"]`. -/
inductive BigFiveKey where
  | O | C | E | A | N
deriving DecidableEq

/-- `traitKeys` of `computeBigFiveResult`. -/
def bigFiveKeys : List BigFiveKey := [.O, .C, .E, .A, .N]

/-- The dimension-key string of a Big Five trait. -/
def BigFiveKey.str : BigFiveKey → String
  | .O => "O"
  | .C => "C"
  | .E => "E"
  | .A => "A"
  | .N => "N"

/-- `labelMap` of `computeBigFiveResult`. -/
def bigFiveLabel : BigFiveKey → String
  | .O => "开放性 (O)"
  | .C => "尽责性 (C)"
  | .E => "外向性 (E)"
  | .A => "宜人性 (A)"
  | .N => "情绪稳定性 / 神经质 (N)"

/-- `interface BigFiveResult` (sans `createdAt`). -/
structure BigFiveResult where
  traits : List (TraitScore BigFiveKey)
  answeredCount : ℕ
  totalQuestions : ℕ
  bankMetadata : QuestionBankMetadata

/-- The body of the `traitKeys.map` of `computeBigFiveResult`:
`percent = max > 0 ? Math.round((score / max) * 100) : 50`. -/
def mkBigFiveTrait (scores maxScores : BigFiveKey → ℚ) (k : BigFiveKey) :
    TraitScore BigFiveKey :=
  { key := k, label := bigFiveLabel k, score := scores k,
    percent :=
      if maxScores k > 0 then jsRound (scores k / maxScores k * 100) else 50 }

/-- The per-question step of the actual-score loop of
`computeBigFiveResult` (same skip rule as the MBTI accumulator). -/
def bigFiveStep (answers : Answers) (acc : (BigFiveKey → ℚ) × ℕ)
    (q : Question) : (BigFiveKey → ℚ) × ℕ :=
  match answeredChoice answers q with
  | none => acc
  | some c => (fun k => acc.1 k + c.weight k.str, acc.2 + 1)

/-- `computeBigFiveResult`. -/
def computeBigFiveResult (bank : QuestionBank) (answers : Answers) :
    BigFiveResult :=
  let maxScores : BigFiveKey → ℚ := fun k => theoreticalMax bank k.str
  let acc : (BigFiveKey → ℚ) × ℕ :=
    bank.questions.foldl (bigFiveStep answers) (fun _ => 0, 0)
  let scores := acc.1
  let answeredCount := acc.2
  let traits := bigFiveKeys.map (mkBigFiveTrait scores maxScores)
  { traits := traits, answeredCount := answeredCount,
    totalQuestions := bank.questions.length, bankMetadata := bank.metadata }

-- ================= FPA =================

/-- `FPADimKey`. -/
inductive FPADimKey where
  | R | Y | B | G
deriving DecidableEq

/-- `FPA_DIM_KEYS` / `dimKeys` of `computeFpaResult`. -/
def fpaDimKeys : List FPADimKey := [.R, .Y, .B, .G]

/-- The dimension-key string of an FPA colour. -/
def FPADimKey.str : FPADimKey → String
  | .R => "R"
  | .Y => "Y"
  | .B => "B"
  | .G => "G"

/-- `FPA_LABEL_MAP`. -/
def fpaLabel : FPADimKey → String
  | .R => "推动 (R)"
  | .Y => "表达 (Y)"
  | .B => "规则 (B)"
  | .G => "支持 (G)"

/-- The body of the `dimKeys.map` of `computeFpaResult`:
`percent = max > 0 ? Math.round((score / max) * 100) : 0`. -/
def mkFpaTrait (scores maxScores : FPADimKey → ℚ) (k : FPADimKey) :
    TraitScore FPADimKey :=
  { key := k, label := fpaLabel k, score := scores k,
    percent :=
      if maxScores k > 0 then jsRound (scores k / maxScores k * 100) else 0 }

/-- `interface FPAResult` (sans `createdAt`). -/
structure FPAResult where
  traits : List (TraitScore FPADimKey)
  dominantColor : FPADimKey
  answeredCount : ℕ
  totalQuestions : ℕ
  bankMetadata : QuestionBankMetadata

/-- The per-question step of the actual-score loop of `computeFpaResult`. -/
def fpaStep (answers : Answers) (acc : (FPADimKey → ℚ) × ℕ)
    (q : Question) : (FPADimKey → ℚ) × ℕ :=
  match answeredChoice answers q with
  | none => acc
  | some c => (fun k => acc.1 k + c.weight k.str, acc.2 + 1)

/-- `computeFpaResult`. -/
def computeFpaResult (bank : QuestionBank) (answers : Answers) : FPAResult :=
  let maxScores : FPADimKey → ℚ := fun k => theoreticalMax bank k.str
  let acc : (FPADimKey → ℚ) × ℕ :=
    bank.questions.foldl (fpaStep answers) (fun _ => 0, 0)
  let scores := acc.1
  let answeredCount := acc.2
  let traits := fpaDimKeys.map (mkFpaTrait scores maxScores)
  let sorted := sortDescBy (fun t => t.percent) traits
  let dominantColor : FPADimKey :=
    match sorted.head? with
    | some t => t.key
    | none => .R
  { traits := traits, dominantColor := dominantColor,
    answeredCount := answeredCount,
    totalQuestions := bank.questions.length, bankMetadata := bank.metadata }

/-- Code side of `renderFpaResult`: `sortedTraits[1]`, the second entry of
the stably descending-sorted traits (the "secondary colour"). -/
def fpaSecondaryTrait (r : FPAResult) : Option (TraitScore FPADimKey) :=
  (sortDescBy (fun t => t.percent) r.traits).get? 1

-- ================= Enneagram =================

/-- `dimKeys` of `computeEnneagramResult`. -/
def enneagramKeys : List String :=
  ["1", "2", "3", "4", "5", "6", "7", "8", "9"]

/-- The trait label: `interpretations?.types?.[key]?.name` when it is a
string, else the fallback (a non-string `name` value — impossible for
validated descriptive content — also falls back here). -/
def enneagramLabel (interps : JsValue) (k : String) : String :=
  match ((interps.getField "types").getField k).getField "name" with
  | .str s => s
  | _ => k ++ " 型"

/-- JS `Number(s)` restricted to the single-digit key strings that occur as
Enneagram trait keys; every other argument would be irrelevant here and is
mapped to `none` (modelling a non-finite parse). -/
def keyToNumber (s : String) : Option ℤ :=
  if s = "1" then some 1
  else if s = "2" then some 2
  else if s = "3" then some 3
  else if s = "4" then some 4
  else if s = "5" then some 5
  else if s = "6" then some 6
  else if s = "7" then some 7
  else if s = "8" then some 8
  else if s = "9" then some 9
  else none

/-- The wing computation of `computeEnneagramResult`: `Number(mainType)`,
the two circular neighbour keys `(mainIndex + 7) % 9 + 1` and
`mainIndex % 9 + 1`, their recorded percents (0 when a key is absent), no
wing when both are zero, else the `>=` comparison picks the wing. -/
def computeWingType (traits : List (TraitScore String)) (mainType : String) :
    Option String :=
  match keyToNumber mainType with
  | none => none
  | some n =>
      let leftKey := toString ((n + 7) % 9 + 1)
      let rightKey := toString (n % 9 + 1)
      let leftPercent : ℤ :=
        ((traits.find? (fun t => t.key == leftKey)).map (fun t => t.percent)).getD 0
      let rightPercent : ℤ :=
        ((traits.find? (fun t => t.key == rightKey)).map (fun t => t.percent)).getD 0
      if leftPercent = 0 ∧ rightPercent = 0 then none
      else if leftPercent ≥ rightPercent then some leftKey else some rightKey

/-- The body of the `dimKeys.map` of `computeEnneagramResult`:
`percent = max > 0 ? Math.round((score / max) * 100) : 0`, label from the
bank's interpretation tables. -/
def mkEnneagramTrait (interps : JsValue) (scores maxScores : String → ℚ)
    (k : String) : TraitScore String :=
  { key := k, label := enneagramLabel interps k, score := scores k,
    percent :=
      if maxScores k > 0 then jsRound (scores k / maxScores k * 100) else 0 }

/-- `interface EnneagramResult` (sans `createdAt`). -/
structure EnneagramResult where
  traits : List (TraitScore String)
  mainType : String
  wingType : Option String
  answeredCount : ℕ
  totalQuestions : ℕ
  bankMetadata : QuestionBankMetadata

/-- The per-question step of the actual-score loop of
`computeEnneagramResult`: the `for (key of dimKeys)` inner loop updates
exactly the nine keys of the score record. -/
def enneagramStep (answers : Answers) (acc : (String → ℚ) × ℕ)
    (q : Question) : (String → ℚ) × ℕ :=
  match answeredChoice answers q with
  | none => acc
  | some c =>
      (fun k => if k ∈ enneagramKeys then acc.1 k + c.weight k else acc.1 k,
       acc.2 + 1)

/-- `computeEnneagramResult`. -/
def computeEnneagramResult (bank : QuestionBank) (answers : Answers) :
    EnneagramResult :=
  let maxScores : String → ℚ := fun k => theoreticalMax bank k
  let acc : (String → ℚ) × ℕ :=
    bank.questions.foldl (enneagramStep answers) (fun _ => 0, 0)
  let scores := acc.1
  let answeredCount := acc.2
  let traits := enneagramKeys.map
    (mkEnneagramTrait bank.interpretations scores maxScores)
  let sorted := sortDescBy (fun t => t.percent) traits
  let mainTrait : Option (TraitScore String) := sorted.head?.or traits.head?
  let mainType : String :=
    match mainTrait with
    | some t => t.key
    | none => "1"
  let wingType : Option String := computeWingType traits mainType
  { traits := traits, mainType := mainType, wingType := wingType,
    answeredCount := answeredCount,
    totalQuestions := bank.questions.length, bankMetadata := bank.metadata }

-- ================= Shareable-URL percent parameters =================

/-- The query parameters at the URL-sync boundary, modelled after the
`Number(raw)` coercion: `params name = none` when the parameter is absent,
otherwise the JS number the raw string coerces to (possibly `NaN`). -/
abbrev Params := String → Option JsNum

/-- `parsePercentParam`: absent or non-finite values yield `null`, finite
values are rounded and clamped into `[0, 100]`. -/
def parsePercentParam (params : Params) (name : String) : Option ℤ :=
  match params name with
  | none => none
  | some n =>
    match n with
    | .finite q => some (min 100 (max 0 (jsRound q)))
    | _ => none

/-- `clampPercent`: non-finite values become 0, finite values are rounded
and clamped into `[0, 100]`. -/
def clampPercent (v : JsNum) : ℤ :=
  match v with
  | .finite q => min 100 (max 0 (jsRound q))
  | _ => 0

/-- `clampPercent` specialised to the already-rounded integers flowing out
of `parsePercentParam` (for an integer argument `Math.round` is the
identity). -/
def clampPercentInt (n : ℤ) : ℤ := min 100 (max 0 n)

/-- `normalizePairPercents`, on the integer outputs of
`parsePercentParam`. -/
def normalizePairPercents (leftRaw rightRaw : Option ℤ) : ℤ × ℤ :=
  match leftRaw, rightRaw with
  | none, none => (50, 50)
  | some l, some r =>
      let sum := l + r
      if 90 ≤ sum ∧ sum ≤ 110 then (clampPercentInt l, clampPercentInt r)
      else (clampPercentInt l, 100 - clampPercentInt l)
  | some l, none => (clampPercentInt l, 100 - clampPercentInt l)
  | none, some r => (100 - clampPercentInt r, clampPercentInt r)

/-- `PAIR_PARAM_NAME_MAP`. -/
def pairParamNames : PairKey → String × String
  | .EI => ("p_e", "p_i")
  | .SN => ("p_s", "p_n")
  | .TF => ("p_t", "p_f")
  | .JP => ("p_j", "p_p")
  | .AT => ("p_a", "p_turb")
  | .HC => ("p_h", "p_c")

/-- `buildNeutralPairScores` (scores 0, percents 50/50). -/
def buildNeutralPairScores : List PairScore :=
  corePairConfigs.map (fun cfg =>
    { key := cfg.key, left := cfg.left, right := cfg.right,
      leftLabel := cfg.leftLabel, rightLabel := cfg.rightLabel,
      leftScore := 0, rightScore := 0, leftPercent := 50, rightPercent := 50 })

/-- `buildNeutralExtendedPairScores`. -/
def buildNeutralExtendedPairScores : List PairScore :=
  extendedPairConfigs.map (fun cfg =>
    { key := cfg.key, left := cfg.left, right := cfg.right,
      leftLabel := cfg.leftLabel, rightLabel := cfg.rightLabel,
      leftScore := 0, rightScore := 0, leftPercent := 50, rightPercent := 50 })

/-- The per-pair body of the two reconstruction loops in the MBTI
shareable-link effect: keep the 50/50 placeholder when neither parameter is
present, otherwise normalize and overwrite both percents (the scores mirror
the percents). -/
def applyUrlPercents (params : Params) (p : PairScore) : PairScore :=
  let names := pairParamNames p.key
  let leftRaw := parsePercentParam params names.1
  let rightRaw := parsePercentParam params names.2
  match leftRaw, rightRaw with
  | none, none => p
  | _, _ =>
      let lr := normalizePairPercents leftRaw rightRaw
      { p with leftPercent := lr.1, rightPercent := lr.2,
               leftScore := (lr.1 : ℚ), rightScore := (lr.2 : ℚ) }

/-- `placeholderMetadata` of the MBTI shareable-link effect. -/
def mbtiPlaceholderMetadata : QuestionBankMetadata :=
  { title := "外部结果（仅类型与维度百分比）", version := "1.0.0",
    language := "zh-CN", model := .MBTI }

/-- The placeholder `MBTIResult` reconstructed from a shareable URL, given
the base/display type already extracted from the regex-checked `result`
parameter. -/
def buildPlaceholderMbtiResult (baseType displayType : String)
    (params : Params) : MBTIResult :=
  { type := baseType, displayType := displayType,
    pairScores := buildNeutralPairScores.map (applyUrlPercents params),
    extendedPairScores :=
      buildNeutralExtendedPairScores.map (applyUrlPercents params),
    rawScores := createEmptyRawScores, answeredCount := 0,
    totalQuestions := 0, bankMetadata := mbtiPlaceholderMetadata }

-- ================= Schema validator =================

/-- The model enumeration check on `metadata.model`. -/
def modelOfString : String → Option PersonalityModel
  | "MBTI" => some .MBTI
  | "BigFive" => some .BigFive
  | "Enneagram" => some .Enneagram
  | "Eysenck" => some .Eysenck
  | "FPA" => some .FPA
  | _ => none

/-- The fixed required-dimension-key set per model, as the inline lists of
`validateQuestionBank` (the MBTI case is `CORE_DIM_KEYS`). -/
def requiredDims : PersonalityModel → List String
  | .MBTI => CORE_DIM_KEYS.map DimKey.str
  | .BigFive => ["O", "C", "E", "A", "N"]
  | .Enneagram => ["1", "2", "3", "4", "5", "6", "7", "8", "9"]
  | .FPA => ["R", "Y", "B", "G"]
  | .Eysenck => ["E", "N", "P", "L"]

/-- The per-model missing-required-dimension error message. -/
def missingDimsError : PersonalityModel → String
  | .MBTI => "MBTI 题库的 dimensions 必须至少包含 E、I、S、N、T、F、J、P"
  | .BigFive => "BigFive 题库的 dimensions 必须至少包含 O、C、E、A、N"
  | .Enneagram => "九型人格题库的 dimensions 必须至少包含 1-9"
  | .FPA => "FPA 题库的 dimensions 必须至少包含 R、Y、B、G"
  | .Eysenck => "艾森克 EPQ 题库的 dimensions 必须至少包含 E、N、P、L"

/-- The choice-normalization loop of `validateQuestionBank` (`j` is the
0-based loop index; messages use `j + 1`).  Every declared dimension key
gets a weight: the original value when it is a finite number, otherwise
0. -/
def validateChoices (qid : String) (dimStrings : List String) :
    List JsValue → ℕ → Except String (List Choice)
  | [], _ => .ok []
  | c :: rest, j =>
    if !(c.truthy && c.typeofObject) then
      .error ("题目 " ++ qid ++ " 的第 " ++ toString (j + 1) ++ " 个选项格式错误")
    else
      match (c.getField "label").asString with
      | none =>
          .error ("题目 " ++ qid ++ " 的第 " ++ toString (j + 1) ++ " 个选项缺少 label")
      | some label =>
          -- the source binds `const w = c.weights` and builds the dense map
          if !((c.getField "weights").truthy &&
              (c.getField "weights").typeofObject) then
            .error ("题目 " ++ qid ++ " 的第 " ++ toString (j + 1) ++ " 个选项缺少 weights 对象")
          else
            (validateChoices qid dimStrings rest (j + 1)).map
              (fun cs =>
                ⟨label,
                 dimStrings.map (fun dim =>
                   (dim,
                    match (c.getField "weights").getField dim with
                    | .num (.finite q) => q
                    | _ => 0))⟩ :: cs)

/-- The question-normalization loop of `validateQuestionBank` (`i` is the
0-based loop index; messages use `i + 1`). -/
def validateQuestions (dimStrings : List String) :
    List JsValue → ℕ → Except String (List Question)
  | [], _ => .ok []
  | q :: rest, i =>
    if !(q.truthy && q.typeofObject) then
      .error ("第 " ++ toString (i + 1) ++ " 题格式错误（不是对象）")
    else
      match (q.getField "id").asString, (q.getField "text").asString with
      | some qid, some text =>
          match q.getField "choices" with
          | .arr choices =>
              if choices.length < 2 then
                .error ("题目 " ++ qid ++ " 的 choices 至少需要两个选项")
              else
                (validateChoices qid dimStrings choices 0).bind (fun cs =>
                  (validateQuestions dimStrings rest (i + 1)).map
                    (fun qs => ⟨qid, text, cs⟩ :: qs))
          | _ => .error ("题目 " ++ qid ++ " 的 choices 至少需要两个选项")
      | _, _ => .error ("第 " ++ toString (i + 1) ++ " 题缺少 id 或 text 字段")

/-- `validateQuestionBank`: the sequential checks of the source, with the
`{ ok: true, data }` / `{ ok: false, error }` result modelled as
`Except String QuestionBank`.  Total — malformed input is data, never an
exception. -/
def validateQuestionBank (raw : JsValue) : Except String QuestionBank :=
  -- the source binds the consts metadata / dimensions / questions /
  -- interpretations / dimStrings; they are inlined here
  if !raw.typeofObject || raw.isNull then
    .error "题库 JSON 顶层必须是对象"
  else if !((raw.getField "metadata").truthy &&
      (raw.getField "metadata").typeofObject) then
    .error "缺少 metadata 字段或类型不正确"
  else
    match ((raw.getField "metadata").getField "title").asString,
        ((raw.getField "metadata").getField "version").asString with
    | some title, some version =>
        match ((raw.getField "metadata").getField "language").asString with
        | none => .error "metadata.language 必须为字符串，例如 \x27zh-CN\x27"
        | some language =>
            match ((raw.getField "metadata").getField "model").asString with
            | none =>
                .error "metadata.model 必须为字符串，例如 \x27MBTI\x27 或 \x27BigFive\x27"
            | some rawModel =>
                match modelOfString rawModel with
                | none => .error ("不支持的模型类型：" ++ rawModel)
                | some model =>
                    match raw.getField "dimensions" with
                    | .arr dims =>
                        if !(requiredDims model).all
                            (fun d => (dims.map jsToString).contains d) then
                          .error (missingDimsError model)
                        else
                          match raw.getField "questions" with
                          | .arr qs =>
                              if qs.length = 0 then
                                .error "questions 必须为非空数组"
                              else
                                (validateQuestions (dims.map jsToString) qs 0).map
                                  (fun normalizedQuestions =>
                                    { metadata :=
                                        ⟨title, version, language, model⟩,
                                      dimensions := dims.map jsToString,
                                      interpretations :=
                                        raw.getField "interpretations",
                                      questions := normalizedQuestions })
                          | _ => .error "questions 必须为非空数组"
                    | _ => .error "dimensions 必须为字符串数组"
    | _, _ => .error "metadata.title 或 metadata.version 缺失或类型错误"

-- ================= App submission state =================

/-- The discriminated `AnyResult` union. -/
inductive AnyResult where
  | mbti (r : MBTIResult)
  | bigfive (r : BigFiveResult)
  | fpa (r : FPAResult)
  | enneagram (r : EnneagramResult)

/-- The submission-relevant slice of the `App` component state.  `answers`
is the `Record<string, number>` state (keys unique, one entry per answered
question). -/
structure AppState where
  questionBank : Option QuestionBank
  answers : List (String × ℤ)
  submitError : Option String
  result : Option AnyResult

/-- The `answers` record as the lookup passed to the scoring functions. -/
def answersLookup (answers : List (String × ℤ)) : Answers :=
  fun id => answers.lookup id

/-- The incomplete-submission message, parameterised by the remaining
count. -/
def incompleteMessage (remain : ℕ) : String :=
  "还有 " ++ toString remain ++ " 题未作答，请完成所有题目后再生成结果。"

/-- The unsupported-model message of `handleSubmit`. -/
def unsupportedModelMessage : String :=
  "当前选择的模型暂未上线，请切换到其他题库后重试。"

/-- `handleSubmit` as a transition on the submission-relevant state; DOM
scrolling, URL sync and document-title updates are side effects outside
the embedding.  `totalQuestions` and `answeredCount` are the memoised
derivations `questionBank?.questions.length ?? 0` and
`Object.keys(answers).length`. -/
def handleSubmit (s : AppState) : AppState :=
  match s.questionBank with
  | none => s
  | some bank =>
    let totalQuestions := bank.questions.length
    let answeredCount := s.answers.length
    if answeredCount < totalQuestions then
      let msg := incompleteMessage (totalQuestions - answeredCount)
      { s with submitError := some msg }
    else
      match bank.metadata.model with
      | .MBTI =>
          { s with
            result := some (.mbti (computeMbtiResult bank (answersLookup s.answers))),
            submitError := none }
      | .BigFive =>
          { s with
            result := some (.bigfive (computeBigFiveResult bank (answersLookup s.answers))),
            submitError := none }
      | .FPA =>
          { s with
            result := some (.fpa (computeFpaResult bank (answersLookup s.answers))),
            submitError := none }
      | .Enneagram =>
          { s with
            result := some (.enneagram (computeEnneagramResult bank (answersLookup s.answers))),
            submitError := none }
      | .Eysenck => { s with submitError := some unsupportedModelMessage }

-- ================= Spec-side definitions =================
-- These definitions follow the specification's words (for refinement
-- comparisons with the code-side definitions above).

/-- Spec side: a question counts as answered when the answer set holds a
defined, in-range choice index for its id. -/
def specAnswered (answers : Answers) (q : Question) : Bool :=
  (answeredChoice answers q).isSome

/-- Spec side: the selected choice's weight for a dimension (0 for a
skipped question). -/
def specChosenWeight (answers : Answers) (q : Question) (dim : String) : ℚ :=
  match answeredChoice answers q with
  | none => 0
  | some c => c.weight dim

/-- Spec side: the raw score of a dimension is the sum, over the answered
questions, of the selected choice's weight for that dimension; skipped
questions contribute nothing. -/
def specRawScore (bank : QuestionBank) (answers : Answers) (dim : String) : ℚ :=
  ((bank.questions.filter (specAnswered answers)).map
    (fun q => specChosenWeight answers q dim)).sum

/-- Spec side: `answeredCount` is the number of questions with a valid
recorded choice. -/
def specAnsweredCount (bank : QuestionBank) (answers : Answers) : ℕ :=
  (bank.questions.filter (specAnswered answers)).length

/-- Spec side (claim C2's words): the highest weight any choice of the
question offers for the dimension. -/
def specQuestionBest (q : Question) (dim : String) : ℚ :=
  match q.choices with
  | [] => 0
  | c :: cs => cs.foldl (fun m c2 => max m (c2.weight dim)) (c.weight dim)

/-- Claim C2's theoretical maximum, exactly as worded: the sum over all
questions of the highest weight any choice offers. -/
def specTheoreticalMaxClaim (bank : QuestionBank) (dim : String) : ℚ :=
  (bank.questions.map (fun q => specQuestionBest q dim)).sum

/-- The amended theoretical maximum: per question, the highest offered
weight clamped below at 0 (what the code's `localMax`, initialised to 0,
computes). -/
def specTheoreticalMaxAmended (bank : QuestionBank) (dim : String) : ℚ :=
  (bank.questions.map (fun q => max 0 (specQuestionBest q dim))).sum

/-- Spec side (claim C3): each pair's winning letter is the side with the
greater-or-equal raw score (an exact both-zero tie thus resolves to the
left letter). -/
def specMbtiLetter (scores : DimKey → ℚ) (l r : DimKey) : DimKey :=
  if scores l ≥ scores r then l else r

/-- Spec side (claim C3): the four winning letters concatenated in fixed
order E/I, S/N, T/F, J/P. -/
def specMbtiType (scores : DimKey → ℚ) : String :=
  (specMbtiLetter scores .E .I).str ++ (specMbtiLetter scores .S .N).str ++
    (specMbtiLetter scores .T .F).str ++ (specMbtiLetter scores .J .P).str

/-- Spec side (claim C3): the bank declares the extended dimension set and
both extended pairs have non-zero combined score, i.e. were actually probed
(not left at an exact 0/0). -/
def specExtCondition (bank : QuestionBank) (scores : DimKey → ℚ) : Prop :=
  ("A" ∈ bank.dimensions ∧ "Turb" ∈ bank.dimensions ∧
    "H" ∈ bank.dimensions ∧ "C" ∈ bank.dimensions) ∧
  ¬(scores .A = 0 ∧ scores .Turb = 0) ∧ ¬(scores .H = 0 ∧ scores .C = 0)

instance (bank : QuestionBank) (scores : DimKey → ℚ) :
    Decidable (specExtCondition bank scores) := by
  unfold specExtCondition; infer_instance

/-- The letter a winning extension dimension contributes to the display
type ("T" for Turb, as in the source's `"A" : "T"` / `"H" : "C"`
ternaries). -/
def DimKey.extLetter : DimKey → String
  | .Turb => "T"
  | d => d.str

/-- Spec side (claim C3): the display type appends the two extension
letters (same greater-or-equal rule) exactly under `specExtCondition`. -/
def specDisplayType (bank : QuestionBank) (scores : DimKey → ℚ) : String :=
  if specExtCondition bank scores then
    specMbtiType scores ++ (specMbtiLetter scores .A .Turb).extLetter ++
      (specMbtiLetter scores .H .C).extLetter
  else specMbtiType scores

/-- Spec side (claims C4 and C7): the leftmost element attaining the
maximum of `p` — the head of a descending stable sort, first-declared
winning exact ties. -/
def firstMaxBy (p : α → ℤ) : List α → Option α
  | [] => none
  | x :: xs =>
    match firstMaxBy p xs with
    | none => some x
    | some m => if p x ≥ p m then some x else some m

/-- Spec side (claim C4): the main type is the key of the highest-percent
trait, first-declared winning exact ties. -/
def specEnneagramMainType (traits : List (TraitScore String)) : String :=
  match firstMaxBy (fun t => t.percent) traits with
  | some t => t.key
  | none => "1"

/-- Spec side (claim C4): type n's lower circular neighbour (n-1, wrapping
1 to 9). -/
def specLeftNeighbor (n : ℤ) : ℤ := if n = 1 then 9 else n - 1

/-- Spec side (claim C4): type n's upper circular neighbour (n+1, wrapping
9 to 1). -/
def specRightNeighbor (n : ℤ) : ℤ := if n = 9 then 1 else n + 1

/-- The percent recorded for a trait key (0 when the key is absent — it
never is for the nine Enneagram traits). -/
def percentOfKey (traits : List (TraitScore String)) (k : String) : ℤ :=
  ((traits.find? (fun t => t.key == k)).map (fun t => t.percent)).getD 0

/-- The percent recorded for an FPA colour key. -/
def fpaPercentOf (traits : List (TraitScore FPADimKey)) (k : FPADimKey) : ℤ :=
  ((traits.find? (fun t => t.key == k)).map (fun t => t.percent)).getD 0

/-- Spec side (claim C7): the dominant colour as a function of the four
percents — the first key in declaration order R, Y, B, G attaining the
maximum. -/
def specFpaDominant (pr py pb pg : ℤ) : FPADimKey :=
  if pr ≥ py ∧ pr ≥ pb ∧ pr ≥ pg then .R
  else if py ≥ pb ∧ py ≥ pg then .Y
  else if pb ≥ pg then .B
  else .G

/-- Spec side (claim C7): the secondary colour — the first key in
declaration order attaining the maximum among the three non-dominant
colours. -/
def specFpaSecondary (pr py pb pg : ℤ) : FPADimKey :=
  match specFpaDominant pr py pb pg with
  | .R => if py ≥ pb ∧ py ≥ pg then .Y else if pb ≥ pg then .B else .G
  | .Y => if pr ≥ pb ∧ pr ≥ pg then .R else if pb ≥ pg then .B else .G
  | .B => if pr ≥ py ∧ pr ≥ pg then .R else if py ≥ pg then .Y else .G
  | .G => if pr ≥ py ∧ pr ≥ pb then .R else if py ≥ pb then .Y else .B

/-- The weight-coercion rule of the validator, per declared dimension key:
the original value when it is a finite number, otherwise 0 (absent,
non-numeric, NaN and infinities all default). -/
def coerceWeight (w : JsValue) (dim : String) : ℚ :=
  match w.getField dim with
  | .num (.finite q) => q
  | _ => 0

-- ================= Concrete inputs for witnesses and counterexamples ====

/-- The empty answer set. -/
def emptyAnswers : Answers := fun _ => none

/-- A minimal MBTI bank (no questions) for witnesses: scoring still
produces all four core pairs. -/
def w1Bank : QuestionBank :=
  { metadata := { title := "w", version := "1", language := "zh-CN", model := .MBTI },
    dimensions := ["E", "I", "S", "N", "T", "F", "J", "P"],
    interpretations := .undefined, questions := [] }

/-- Big Five bank exhibiting the negative-weight clamping of the
theoretical-maximum pass: question 1 offers only weight -5 for O, question
2 offers weights 10 and 0 for O. -/
def c2Bank : QuestionBank :=
  { metadata := { title := "b5", version := "1", language := "zh-CN", model := .BigFive },
    dimensions := ["O", "C", "E", "A", "N"],
    interpretations := .undefined,
    questions :=
      [{ id := "q1", text := "t1",
         choices := [{ label := "a", weights := [("O", -5)] },
                     { label := "b", weights := [("O", -5)] }] },
       { id := "q2", text := "t2",
         choices := [{ label := "a", weights := [("O", 10)] },
                     { label := "b", weights := [("O", 0)] }] }] }

/-- Answers for `c2Bank`: both questions answered with their first
choice. -/
def c2Answers : Answers :=
  fun id => if id = "q1" then some 0 else if id = "q2" then some 0 else none

/-- Enneagram bank for the classifier witness: type 1 scores 100%, type 9
scores 50%, everything else 0%. -/
def c4Bank : QuestionBank :=
  { metadata := { title := "enn", version := "1", language := "zh-CN", model := .Enneagram },
    dimensions := ["1", "2", "3", "4", "5", "6", "7", "8", "9"],
    interpretations := .undefined,
    questions :=
      [{ id := "q1", text := "t1",
         choices := [{ label := "a", weights := [("1", 1)] },
                     { label := "b", weights := [] }] },
       { id := "q2", text := "t2",
         choices := [{ label := "a", weights := [("9", 2)] },
                     { label := "b", weights := [("9", 1)] }] }] }

/-- Answers for `c4Bank`: q1 choice 0, q2 choice 1 (so type 9 reaches half
of its maximum). -/
def c4Answers : Answers :=
  fun id => if id = "q1" then some 0 else if id = "q2" then some 1 else none

/-- URL parameters (post-`Number` coercion) for the pair-percent-sum
counterexample: `p_e=45&p_i=46`, a shared link whose sides sum to 91. -/
def c6Params : Params :=
  fun s =>
    if s = "p_e" then some (.finite 45)
    else if s = "p_i" then some (.finite 46) else none

/-- A one-question MBTI bank for the completion-gating witness. -/
def c8Bank : QuestionBank :=
  { metadata := { title := "g", version := "1", language := "zh-CN", model := .MBTI },
    dimensions := ["E", "I", "S", "N", "T", "F", "J", "P"],
    interpretations := .undefined,
    questions :=
      [{ id := "q1", text := "t1",
         choices := [{ label := "a", weights := [("E", 1)] },
                     { label := "b", weights := [("I", 1)] }] }] }

/-- App state with `c8Bank` loaded and nothing answered. -/
def c8State : AppState :=
  { questionBank := some c8Bank, answers := [], submitError := none,
    result := none }

/-- A well-formed Big Five bank as a raw JSON value, for the validator
witnesses. -/
def c9Raw : JsValue :=
  .obj
    [("metadata", .obj [("title", .str "b5"), ("version", .str "1"),
       ("language", .str "zh-CN"), ("model", .str "BigFive")]),
     ("dimensions", .arr [.str "O", .str "C", .str "E", .str "A", .str "N"]),
     ("questions", .arr
       [.obj [("id", .str "q1"), ("text", .str "t1"),
          ("choices", .arr
            [.obj [("label", .str "a"),
               ("weights", .obj [("O", .num (.finite 3)), ("C", .num .nan)])],
             .obj [("label", .str "b"), ("weights", .obj [])]])]])]

/-- The normalized bank `c9Raw` validates to. -/
def c9Bank : QuestionBank :=
  { metadata := { title := "b5", version := "1", language := "zh-CN", model := .BigFive },
    dimensions := ["O", "C", "E", "A", "N"],
    interpretations := .undefined,
    questions :=
      [{ id := "q1", text := "t1",
         choices :=
           [{ label := "a",
              weights := [("O", 3), ("C", 0), ("E", 0), ("A", 0), ("N", 0)] },
            { label := "b",
              weights := [("O", 0), ("C", 0), ("E", 0), ("A", 0), ("N", 0)] }] }] }

/-- A Big Five bank declaring the extra dimension "Z" beyond the required
set, as a raw JSON value. -/
def c10Raw : JsValue :=
  .obj
    [("metadata", .obj [("title", .str "b5"), ("version", .str "1"),
       ("language", .str "zh-CN"), ("model", .str "BigFive")]),
     ("dimensions", .arr [.str "O", .str "C", .str "E", .str "A", .str "N",
       .str "Z"]),
     ("questions", .arr
       [.obj [("id", .str "q1"), ("text", .str "t1"),
          ("choices", .arr
            [.obj [("label", .str "a"),
               ("weights", .obj [("Z", .num (.finite 2))])],
             .obj [("label", .str "b"), ("weights", .obj [])]])]])]

/-- The normalized bank `c10Raw` validates to: the extra dimension "Z" is
preserved in `dimensions` and densely weighted. -/
def c10Bank : QuestionBank :=
  { metadata := { title := "b5", version := "1", language := "zh-CN", model := .BigFive },
    dimensions := ["O", "C", "E", "A", "N", "Z"],
    interpretations := .undefined,
    questions :=
      [{ id := "q1", text := "t1",
         choices :=
           [{ label := "a",
              weights := [("O", 0), ("C", 0), ("E", 0), ("A", 0), ("N", 0),
                ("Z", 2)] },
            { label := "b",
              weights := [("O", 0), ("C", 0), ("E", 0), ("A", 0), ("N", 0),
                ("Z", 0)] }] }] }

-- ================= Helper lemmas =================

theorem mkPairScore_ratio (scores : DimKey → ℚ) (cfg : PairConfig)
    (h : (mkPairScore scores cfg).leftScore + (mkPairScore scores cfg).rightScore > 0) :
    (mkPairScore scores cfg).leftPercent =
      jsRound (100 * (mkPairScore scores cfg).leftScore /
        ((mkPairScore scores cfg).leftScore + (mkPairScore scores cfg).rightScore)) := by
  have h' : scores cfg.left + scores cfg.right > 0 := h
  show (if scores cfg.left + scores cfg.right > 0 then
      jsRound (scores cfg.left / (scores cfg.left + scores cfg.right) * 100) else 50) =
    jsRound (100 * scores cfg.left / (scores cfg.left + scores cfg.right))
  rw [if_pos h', div_mul_eq_mul_div, mul_comm]

theorem mkPairScore_neutral (scores : DimKey → ℚ) (cfg : PairConfig)
    (h1 : (mkPairScore scores cfg).leftScore = 0)
    (h2 : (mkPairScore scores cfg).rightScore = 0) :
    (mkPairScore scores cfg).leftPercent = 50 ∧
      (mkPairScore scores cfg).rightPercent = 50 := by
  have h1' : scores cfg.left = 0 := h1
  have h2' : scores cfg.right = 0 := h2
  constructor
  · show (if scores cfg.left + scores cfg.right > 0 then
        jsRound (scores cfg.left / (scores cfg.left + scores cfg.right) * 100) else 50) = 50
    rw [h1', h2']
    norm_num
  · show 100 - (if scores cfg.left + scores cfg.right > 0 then
        jsRound (scores cfg.left / (scores cfg.left + scores cfg.right) * 100) else 50) = 50
    rw [h1', h2']
    norm_num

theorem mkPairScore_complement (scores : DimKey → ℚ) (cfg : PairConfig) :
    (mkPairScore scores cfg).rightPercent =
      100 - (mkPairScore scores cfg).leftPercent := rfl

theorem mbti_foldl_fst (answers : Answers) (qs : List Question) :
    ∀ (acc : (DimKey → ℚ) × ℕ) (d : DimKey),
      (qs.foldl (mbtiStep answers) acc).1 d =
        acc.1 d + ((qs.filter (specAnswered answers)).map
          (fun q => specChosenWeight answers q d.str)).sum := by
  induction qs with
  | nil => intro acc d; simp
  | cons q qs ih =>
    intro acc d
    rw [List.foldl_cons, ih]
    cases h : answeredChoice answers q with
    | none => simp [mbtiStep, h, List.filter_cons, specAnswered]
    | some c =>
        simp [mbtiStep, h, List.filter_cons, specAnswered, specChosenWeight,
          add_assoc]

theorem mbti_foldl_snd (answers : Answers) (qs : List Question) :
    ∀ (acc : (DimKey → ℚ) × ℕ),
      (qs.foldl (mbtiStep answers) acc).2 =
        acc.2 + (qs.filter (specAnswered answers)).length := by
  induction qs with
  | nil => intro acc; simp
  | cons q qs ih =>
    intro acc
    rw [List.foldl_cons, ih]
    cases h : answeredChoice answers q with
    | none => simp [mbtiStep, h, List.filter_cons, specAnswered]
    | some c =>
        simp [mbtiStep, h, List.filter_cons, specAnswered]
        omega

theorem enneagram_foldl_fst (answers : Answers) (qs : List Question) :
    ∀ (acc : (String → ℚ) × ℕ) (k : String), k ∈ enneagramKeys →
      (qs.foldl (enneagramStep answers) acc).1 k =
        acc.1 k + ((qs.filter (specAnswered answers)).map
          (fun q => specChosenWeight answers q k)).sum := by
  induction qs with
  | nil => intro acc k _; simp
  | cons q qs ih =>
    intro acc k hk
    rw [List.foldl_cons, ih _ k hk]
    cases h : answeredChoice answers q with
    | none => simp [enneagramStep, h, List.filter_cons, specAnswered]
    | some c =>
        simp [enneagramStep, h, List.filter_cons, specAnswered,
          specChosenWeight, hk, add_assoc]

theorem enneagram_foldl_snd (answers : Answers) (qs : List Question) :
    ∀ (acc : (String → ℚ) × ℕ),
      (qs.foldl (enneagramStep answers) acc).2 =
        acc.2 + (qs.filter (specAnswered answers)).length := by
  induction qs with
  | nil => intro acc; simp
  | cons q qs ih =>
    intro acc
    rw [List.foldl_cons, ih]
    cases h : answeredChoice answers q with
    | none => simp [enneagramStep, h, List.filter_cons, specAnswered]
    | some c =>
        simp [enneagramStep, h, List.filter_cons, specAnswered]
        omega

/-- Evaluation form of `List.lookup` on a cons cell (for concrete weight
maps). -/
theorem lookup_eval (a k : String) (v : ℚ) (l : List (String × ℚ)) :
    List.lookup a ((k, v) :: l) = if a = k then some v else List.lookup a l := by
  by_cases h : a = k
  · simp [List.lookup, h]
  · have hb : (a == k) = false := beq_eq_false_iff_ne.mpr h
    simp [List.lookup, hb, h]

/-- Evaluation form of `List.lookup` on the empty weight map. -/
theorem lookup_nil_q (a : String) :
    List.lookup a ([] : List (String × ℚ)) = none := rfl

theorem foldl_if_gt_eq_max (dim : String) (cs : List Choice) :
    ∀ m : ℚ,
      cs.foldl (fun m c => if c.weight dim > m then c.weight dim else m) m =
        cs.foldl (fun m c => max m (c.weight dim)) m := by
  induction cs with
  | nil => intro m; rfl
  | cons c cs ih =>
    intro m
    rw [List.foldl_cons, List.foldl_cons, ih]
    congr 1
    rcases le_or_lt (c.weight dim) m with h | h
    · rw [if_neg (not_lt.mpr h), max_eq_left h]
    · rw [if_pos h, max_eq_right h.le]

theorem foldl_max_pull (dim : String) (cs : List Choice) :
    ∀ a b : ℚ,
      cs.foldl (fun m c => max m (c.weight dim)) (max a b) =
        max a (cs.foldl (fun m c => max m (c.weight dim)) b) := by
  induction cs with
  | nil => intro a b; rfl
  | cons c cs ih => intro a b; rw [List.foldl_cons, List.foldl_cons, max_assoc, ih]

theorem questionLocalMax_eq (q : Question) (dim : String) :
    questionLocalMax q dim = max 0 (specQuestionBest q dim) := by
  unfold questionLocalMax specQuestionBest
  cases hq : q.choices with
  | nil => simp
  | cons c cs =>
    rw [foldl_if_gt_eq_max, List.foldl_cons]
    exact foldl_max_pull dim cs 0 (c.weight dim)

theorem theoreticalMax_eq (bank : QuestionBank) (dim : String) :
    theoreticalMax bank dim = specTheoreticalMaxAmended bank dim := by
  unfold theoreticalMax specTheoreticalMaxAmended
  have key : ∀ (qs : List Question) (a : ℚ),
      qs.foldl (fun acc q => acc + questionLocalMax q dim) a =
        a + (qs.map (fun q => max 0 (specQuestionBest q dim))).sum := by
    intro qs
    induction qs with
    | nil => intro a; simp
    | cons q qs ih =>
        intro a
        rw [List.foldl_cons, ih, questionLocalMax_eq]
        simp [add_assoc]
  simpa using key bank.questions 0

-- ================= Claim theorems =================

/-- Claim C1: for every MBTI opposed pair, core and extended, produced by
the normalizer in `computeMbtiResult`:
`leftPercent = round(100 * leftScore / (leftScore + rightScore))` when the
raw-score sum is positive; a both-zero pair is a neutral 50/50 split; and
in every case `rightPercent = 100 - leftPercent`. -/
theorem C1_mbti_pair_normalization (bank : QuestionBank) (answers : Answers)
    (p : PairScore)
    (hp : p ∈ (computeMbtiResult bank answers).pairScores ++
      (computeMbtiResult bank answers).extendedPairScores) :
    ((p.leftScore + p.rightScore > 0 →
        p.leftPercent = jsRound (100 * p.leftScore / (p.leftScore + p.rightScore))) ∧
      ((p.leftScore = 0 ∧ p.rightScore = 0) →
        p.leftPercent = 50 ∧ p.rightPercent = 50) ∧
      p.rightPercent = 100 - p.leftPercent) := by
  have hps : (computeMbtiResult bank answers).pairScores =
      corePairConfigs.map (mkPairScore (mbtiAccumulate bank answers).1) := rfl
  have heps : (computeMbtiResult bank answers).extendedPairScores =
      extendedPairConfigs.map (mkPairScore (mbtiAccumulate bank answers).1) := rfl
  rw [hps, heps, ← List.map_append] at hp
  rcases List.mem_map.mp hp with ⟨cfg, _, rfl⟩
  exact ⟨mkPairScore_ratio _ cfg,
    fun h => mkPairScore_neutral _ cfg h.1 h.2,
    mkPairScore_complement _ cfg⟩

/-- Witness for C1 at a concrete input: the empty-bank EI pair is a
neutral 50/50 split with complementary percents. -/
theorem C1_witness :
    (mkPairScore createEmptyRawScores
        ⟨.EI, .E, .I, "外向 (E)", "内向 (I)"⟩).leftPercent = 50 ∧
      (mkPairScore createEmptyRawScores
        ⟨.EI, .E, .I, "外向 (E)", "内向 (I)"⟩).rightPercent = 50 := by
  have h := C1_mbti_pair_normalization w1Bank emptyAnswers
    (mkPairScore createEmptyRawScores ⟨.EI, .E, .I, "外向 (E)", "内向 (I)"⟩)
    (List.mem_append.mpr (Or.inl (List.mem_map.mpr
      ⟨⟨.EI, .E, .I, "外向 (E)", "内向 (I)"⟩, by decide, rfl⟩)))
  exact h.2.1 ⟨by decide, by decide⟩

/-- Claim C5: for every bank and answer set, the score accumulator adds,
for each question whose id maps to a defined in-range choice index, that
choice's weight for every known dimension key into the raw score vector
and counts the question in `answeredCount`; unanswered or out-of-range
questions are skipped silently, contribute nothing, and are not counted
(shown for the MBTI and Enneagram accumulation loops). -/
theorem C5_accumulator (bank : QuestionBank) (answers : Answers) :
    (∀ d : DimKey, (computeMbtiResult bank answers).rawScores d =
      specRawScore bank answers d.str) ∧
    (computeMbtiResult bank answers).answeredCount =
      specAnsweredCount bank answers ∧
    (∀ t ∈ (computeEnneagramResult bank answers).traits,
      t.score = specRawScore bank answers t.key) ∧
    (computeEnneagramResult bank answers).answeredCount =
      specAnsweredCount bank answers := by
  refine ⟨?_, ?_, ?_, ?_⟩
  · intro d
    have h := mbti_foldl_fst answers bank.questions (createEmptyRawScores, 0) d
    simpa [createEmptyRawScores, specRawScore] using h
  · have h := mbti_foldl_snd answers bank.questions (createEmptyRawScores, 0)
    simpa [specAnsweredCount] using h
  · intro t ht
    have htr : (computeEnneagramResult bank answers).traits =
        enneagramKeys.map (mkEnneagramTrait bank.interpretations
          (bank.questions.foldl (enneagramStep answers) (fun _ => 0, 0)).1
          (fun k => theoreticalMax bank k)) := rfl
    rw [htr] at ht
    rcases List.mem_map.mp ht with ⟨k, hk, rfl⟩
    have h := enneagram_foldl_fst answers bank.questions (fun _ => 0, 0) k hk
    simpa [mkEnneagramTrait, specRawScore] using h
  · have h := enneagram_foldl_snd answers bank.questions (fun _ => 0, 0)
    simpa [specAnsweredCount] using h

/-- Witness for C5 at a concrete input: on `c4Bank`/`c4Answers` the type-1
trait's accumulated score equals the spec-side filtered sum, and both
answered questions are counted. -/
theorem C5_witness :
    ((computeEnneagramResult c4Bank c4Answers).answeredCount =
      specAnsweredCount c4Bank c4Answers) ∧
    (mkEnneagramTrait JsValue.undefined
        (c4Bank.questions.foldl (enneagramStep c4Answers) (fun _ => 0, 0)).1
        (fun k => theoreticalMax c4Bank k) "1").score =
      specRawScore c4Bank c4Answers "1" := by
  have h := C5_accumulator c4Bank c4Answers
  refine ⟨h.2.2.2, ?_⟩
  exact h.2.2.1 _ (List.mem_map.mpr ⟨"1", by decide, rfl⟩)

/-- Counterexample to claim C2 as stated: on `c2Bank` (whose first
question offers only the weight -5 for O) the code's theoretical maximum
for O is 10, not the claim's -5 + 10 = 5, so the O trait reports 50 where
the claim's formula demands round(100 * 5 / 5) = 100. -/
theorem C2_counterexample :
    ¬ (∀ t ∈ (computeBigFiveResult c2Bank c2Answers).traits,
        t.percent =
          if specTheoreticalMaxClaim c2Bank t.key.str > 0 then
            jsRound (100 * t.score / specTheoreticalMaxClaim c2Bank t.key.str)
          else 50) := by
  intro hall
  have hmem : mkBigFiveTrait
      (c2Bank.questions.foldl (bigFiveStep c2Answers) (fun _ => 0, 0)).1
      (fun k => theoreticalMax c2Bank k.str) BigFiveKey.O ∈
      (computeBigFiveResult c2Bank c2Answers).traits :=
    List.mem_map.mpr ⟨BigFiveKey.O, by decide, rfl⟩
  have h := hall _ hmem
  simp [mkBigFiveTrait, c2Bank, c2Answers, bigFiveStep, answeredChoice, choiceAt,
    theoreticalMax, questionLocalMax, Choice.weight, BigFiveKey.str,
    specTheoreticalMaxClaim, specQuestionBest, lookup_eval, lookup_nil_q,
    max_def] at h
  norm_num [jsRound] at h

/-- Claim C2 (amended): for Big Five, Enneagram and FPA, each trait's
theoretical maximum is the sum over all questions of the larger of 0 and
the highest weight any choice offers for that trait (negative per-question
maxima are clamped to 0), independent of the answers; the percent is
round(100 * actualScore / theoreticalMax) when that maximum is positive,
else 50 for Big Five and 0 for Enneagram and FPA. -/
theorem C2_amended (bank : QuestionBank) (answers : Answers) :
    (∀ t ∈ (computeBigFiveResult bank answers).traits,
      t.percent =
        if specTheoreticalMaxAmended bank t.key.str > 0 then
          jsRound (100 * t.score / specTheoreticalMaxAmended bank t.key.str)
        else 50) ∧
    (∀ t ∈ (computeFpaResult bank answers).traits,
      t.percent =
        if specTheoreticalMaxAmended bank t.key.str > 0 then
          jsRound (100 * t.score / specTheoreticalMaxAmended bank t.key.str)
        else 0) ∧
    (∀ t ∈ (computeEnneagramResult bank answers).traits,
      t.percent =
        if specTheoreticalMaxAmended bank t.key > 0 then
          jsRound (100 * t.score / specTheoreticalMaxAmended bank t.key)
        else 0) := by
  refine ⟨?_, ?_, ?_⟩
  · intro t ht
    have htr : (computeBigFiveResult bank answers).traits =
        bigFiveKeys.map (mkBigFiveTrait
          (bank.questions.foldl (bigFiveStep answers) (fun _ => 0, 0)).1
          (fun k => theoreticalMax bank k.str)) := rfl
    rw [htr] at ht
    rcases List.mem_map.mp ht with ⟨k, _, rfl⟩
    show (if theoreticalMax bank k.str > 0 then
        jsRound ((bank.questions.foldl (bigFiveStep answers) (fun _ => 0, 0)).1 k /
          theoreticalMax bank k.str * 100) else 50) = _
    rw [theoreticalMax_eq, div_mul_eq_mul_div,
      mul_comm ((bank.questions.foldl (bigFiveStep answers) (fun _ => 0, 0)).1 k) 100]
    rfl
  · intro t ht
    have htr : (computeFpaResult bank answers).traits =
        fpaDimKeys.map (mkFpaTrait
          (bank.questions.foldl (fpaStep answers) (fun _ => 0, 0)).1
          (fun k => theoreticalMax bank k.str)) := rfl
    rw [htr] at ht
    rcases List.mem_map.mp ht with ⟨k, _, rfl⟩
    show (if theoreticalMax bank k.str > 0 then
        jsRound ((bank.questions.foldl (fpaStep answers) (fun _ => 0, 0)).1 k /
          theoreticalMax bank k.str * 100) else 0) = _
    rw [theoreticalMax_eq, div_mul_eq_mul_div,
      mul_comm ((bank.questions.foldl (fpaStep answers) (fun _ => 0, 0)).1 k) 100]
    rfl
  · intro t ht
    have htr : (computeEnneagramResult bank answers).traits =
        enneagramKeys.map (mkEnneagramTrait bank.interpretations
          (bank.questions.foldl (enneagramStep answers) (fun _ => 0, 0)).1
          (fun k => theoreticalMax bank k)) := rfl
    rw [htr] at ht
    rcases List.mem_map.mp ht with ⟨k, _, rfl⟩
    show (if theoreticalMax bank k > 0 then
        jsRound ((bank.questions.foldl (enneagramStep answers) (fun _ => 0, 0)).1 k /
          theoreticalMax bank k * 100) else 0) = _
    rw [theoreticalMax_eq, div_mul_eq_mul_div,
      mul_comm ((bank.questions.foldl (enneagramStep answers) (fun _ => 0, 0)).1 k) 100]
    rfl

/-- Witness for the amended C2 at a concrete input: the O trait of
`c2Bank` satisfies the amended share-of-maximum formula. -/
theorem C2_witness :
    (mkBigFiveTrait
        (c2Bank.questions.foldl (bigFiveStep c2Answers) (fun _ => 0, 0)).1
        (fun k => theoreticalMax c2Bank k.str) BigFiveKey.O).percent =
      if specTheoreticalMaxAmended c2Bank "O" > 0 then
        jsRound (100 * (mkBigFiveTrait
          (c2Bank.questions.foldl (bigFiveStep c2Answers) (fun _ => 0, 0)).1
          (fun k => theoreticalMax c2Bank k.str) BigFiveKey.O).score /
            specTheoreticalMaxAmended c2Bank "O")
      else 50 :=
  (C2_amended c2Bank c2Answers).1 _ (List.mem_map.mpr ⟨BigFiveKey.O, by decide, rfl⟩)

theorem letter_eq (scores : DimKey → ℚ) (l r : DimKey) :
    (if scores l = 0 ∧ scores r = 0 then l
     else if scores l ≥ scores r then l else r) = specMbtiLetter scores l r := by
  unfold specMbtiLetter
  by_cases h1 : scores l = 0 ∧ scores r = 0
  · rw [if_pos h1, if_pos (by rw [h1.1, h1.2])]
  · rw [if_neg h1]

theorem extCond_bool_iff (bank : QuestionBank) (scores : DimKey → ℚ) :
    ((bank.dimensions.contains "A" && bank.dimensions.contains "Turb" &&
        bank.dimensions.contains "H" && bank.dimensions.contains "C") &&
      (scores .A != 0 || scores .Turb != 0) &&
      (scores .H != 0 || scores .C != 0)) = true ↔
      specExtCondition bank scores := by
  unfold specExtCondition
  simp [not_and_or, and_assoc]
  tauto

/-- Claim C3: the MBTI 4-letter type concatenates, in fixed order E/I,
S/N, T/F, J/P, each pair's winner (the side with greater-or-equal raw
score, a both-zero tie resolving to the left letter), and `displayType`
appends the two extension letters (same rule) if and only if the bank
declares the extended dimension set and both extended pairs were actually
probed (score pair not 0/0); otherwise it equals the 4-letter type. -/
theorem C3_mbti_classifier (bank : QuestionBank) (answers : Answers) :
    (computeMbtiResult bank answers).type =
      specMbtiType (computeMbtiResult bank answers).rawScores ∧
    (computeMbtiResult bank answers).displayType =
      specDisplayType bank (computeMbtiResult bank answers).rawScores := by
  have htype : (computeMbtiResult bank answers).type =
      specMbtiType (mbtiAccumulate bank answers).1 := by
    show String.join
        (((corePairConfigs.map (mkPairScore (mbtiAccumulate bank answers).1)).map
          (fun p => if p.leftScore = 0 ∧ p.rightScore = 0 then p.left
            else if p.leftScore ≥ p.rightScore then p.left else p.right)).map
          DimKey.str) = specMbtiType (mbtiAccumulate bank answers).1
    simp only [corePairConfigs, List.map_cons, List.map_nil, mkPairScore]
    simp only [letter_eq]
    simp [String.join, specMbtiType, String.empty_append]
  refine ⟨htype, ?_⟩
  have hraw : (computeMbtiResult bank answers).rawScores =
      (mbtiAccumulate bank answers).1 := rfl
  rw [hraw]
  have hdis : (computeMbtiResult bank answers).displayType =
      (if ((bank.dimensions.contains "A" && bank.dimensions.contains "Turb" &&
            bank.dimensions.contains "H" && bank.dimensions.contains "C") &&
          ((mbtiAccumulate bank answers).1 .A != 0 ||
            (mbtiAccumulate bank answers).1 .Turb != 0) &&
          ((mbtiAccumulate bank answers).1 .H != 0 ||
            (mbtiAccumulate bank answers).1 .C != 0)) = true then
        (computeMbtiResult bank answers).type ++
          (if (mbtiAccumulate bank answers).1 .A ≥
              (mbtiAccumulate bank answers).1 .Turb then "A" else "T") ++
          (if (mbtiAccumulate bank answers).1 .H ≥
              (mbtiAccumulate bank answers).1 .C then "H" else "C")
      else (computeMbtiResult bank answers).type) := rfl
  rw [hdis, htype]
  unfold specDisplayType
  by_cases hc : specExtCondition bank (mbtiAccumulate bank answers).1
  · rw [if_pos ((extCond_bool_iff bank _).mpr hc), if_pos hc]
    have hA : (if (mbtiAccumulate bank answers).1 .A ≥
        (mbtiAccumulate bank answers).1 .Turb then "A" else "T") =
        (specMbtiLetter (mbtiAccumulate bank answers).1 .A .Turb).extLetter := by
      unfold specMbtiLetter
      split_ifs <;> rfl
    have hH : (if (mbtiAccumulate bank answers).1 .H ≥
        (mbtiAccumulate bank answers).1 .C then "H" else "C") =
        (specMbtiLetter (mbtiAccumulate bank answers).1 .H .C).extLetter := by
      unfold specMbtiLetter
      split_ifs <;> rfl
    rw [hA, hH]
  · rw [if_neg (fun h => hc ((extCond_bool_iff bank _).mp h)), if_neg hc]

/-- Witness for C3 at a concrete input: the empty MBTI bank classifies as
the all-left-default type "ESTJ" with no extension letters. -/
theorem C3_witness :
    (computeMbtiResult w1Bank emptyAnswers).type = "ESTJ" ∧
    (computeMbtiResult w1Bank emptyAnswers).displayType = "ESTJ" := by
  have h := C3_mbti_classifier w1Bank emptyAnswers
  have hs : (computeMbtiResult w1Bank emptyAnswers).rawScores =
      createEmptyRawScores := rfl
  rw [hs] at h
  constructor
  · rw [h.1]
    show specMbtiType createEmptyRawScores = "ESTJ"
    simp [specMbtiType, specMbtiLetter, createEmptyRawScores, DimKey.str]
  · rw [h.2]
    unfold specDisplayType
    rw [if_neg ?hn]
    case hn =>
      intro hcond
      exact hcond.2.1 ⟨rfl, rfl⟩
    show specMbtiType createEmptyRawScores = "ESTJ"
    simp [specMbtiType, specMbtiLetter, createEmptyRawScores, DimKey.str]

theorem insertDescBy_head (p : α → ℤ) (x : α) (l : List α) :
    (insertDescBy p x l).head? =
      some (match l.head? with
        | none => x
        | some y => if p x ≥ p y then x else y) := by
  cases l with
  | nil => rfl
  | cons y ys =>
      unfold insertDescBy
      split_ifs with h <;> simp [h]

theorem sortDescBy_head (p : α → ℤ) (l : List α) :
    (sortDescBy p l).head? = firstMaxBy p l := by
  induction l with
  | nil => rfl
  | cons x xs ih =>
      unfold sortDescBy firstMaxBy
      rw [insertDescBy_head, ih]
      cases hf : firstMaxBy p xs with
      | none => simp
      | some m =>
          simp only
          split_ifs <;> rfl

theorem firstMaxBy_eq_none (p : α → ℤ) (l : List α)
    (h : firstMaxBy p l = none) : l = [] := by
  cases l with
  | nil => rfl
  | cons x xs =>
      exfalso
      unfold firstMaxBy at h
      cases hf : firstMaxBy p xs with
      | none =>
          rw [hf] at h
          exact Option.noConfusion h
      | some m =>
          rw [hf] at h
          have h' : (if p x ≥ p m then some x else some m) = none := h
          split_ifs at h'

theorem firstMaxBy_mem (p : α → ℤ) (l : List α) (m : α)
    (h : firstMaxBy p l = some m) : m ∈ l := by
  induction l with
  | nil => exact absurd h (by simp [firstMaxBy])
  | cons x xs ih =>
      unfold firstMaxBy at h
      cases hf : firstMaxBy p xs with
      | none =>
          rw [hf] at h
          obtain rfl := Option.some.inj h
          exact List.mem_cons_self x xs
      | some m2 =>
          rw [hf] at h
          have h' : (if p x ≥ p m2 then some x else some m2) = some m := h
          split_ifs at h'
          · obtain rfl := Option.some.inj h'
            exact List.mem_cons_self x xs
          · obtain rfl := Option.some.inj h'
            exact List.mem_cons_of_mem _ (ih hf)

theorem keyToNumber_range (s : String) (n : ℤ)
    (h : keyToNumber s = some n) : 1 ≤ n ∧ n ≤ 9 := by
  unfold keyToNumber at h
  split_ifs at h <;> simp only [Option.some.injEq] at h <;> omega

theorem neighbor_left_eq (n : ℤ) (h1 : 1 ≤ n) (h9 : n ≤ 9) :
    (n + 7) % 9 + 1 = specLeftNeighbor n := by
  unfold specLeftNeighbor
  interval_cases n <;> decide

theorem neighbor_right_eq (n : ℤ) (h1 : 1 ≤ n) (h9 : n ≤ 9) :
    n % 9 + 1 = specRightNeighbor n := by
  unfold specRightNeighbor
  interval_cases n <;> decide

theorem computeWingType_spec (tl : List (TraitScore String)) (mt : String)
    (n : ℤ) (hn : keyToNumber mt = some n) (h1 : 1 ≤ n) (h9 : n ≤ 9) :
    (percentOfKey tl (toString (specLeftNeighbor n)) >
        percentOfKey tl (toString (specRightNeighbor n)) →
      computeWingType tl mt = some (toString (specLeftNeighbor n))) ∧
    (percentOfKey tl (toString (specRightNeighbor n)) >
        percentOfKey tl (toString (specLeftNeighbor n)) →
      computeWingType tl mt = some (toString (specRightNeighbor n))) ∧
    (computeWingType tl mt = none ↔
      (percentOfKey tl (toString (specLeftNeighbor n)) = 0 ∧
        percentOfKey tl (toString (specRightNeighbor n)) = 0)) := by
  unfold computeWingType percentOfKey
  rw [hn]
  simp only
  rw [neighbor_left_eq n h1 h9, neighbor_right_eq n h1 h9]
  refine ⟨?_, ?_, ?_⟩
  · intro hgt
    rw [if_neg (by omega), if_pos (by omega)]
  · intro hgt
    rw [if_neg (by omega), if_neg (by omega)]
  · constructor
    · intro hnone
      split_ifs at hnone with h0
      exact h0
    · intro h0
      rw [if_pos h0]

theorem enneagram_mainType_match (tl : List (TraitScore String)) :
    (match (sortDescBy (fun t => t.percent) tl).head?.or tl.head? with
      | some t => t.key
      | none => "1") = specEnneagramMainType tl := by
  unfold specEnneagramMainType
  rw [sortDescBy_head]
  cases hf : firstMaxBy (fun t => t.percent) tl with
  | none => rw [firstMaxBy_eq_none _ _ hf]; rfl
  | some m => rfl

set_option maxHeartbeats 1000000 in
/-- Claim C4: the Enneagram main type is the key of the highest-percent
trait after a descending stable sort (first-declared wins exact ties); its
key always parses to a number n in 1..9; the wing is the circular
neighbour (n-1 / n+1, wrapping 1 and 9) with the strictly higher percent,
and the wing is reported as absent (null) exactly when both neighbour
percents are zero. -/
theorem C4_enneagram_classifier (bank : QuestionBank) (answers : Answers) :
    (computeEnneagramResult bank answers).mainType =
      specEnneagramMainType (computeEnneagramResult bank answers).traits ∧
    (keyToNumber (computeEnneagramResult bank answers).mainType).isSome ∧
    (∀ n : ℤ, keyToNumber (computeEnneagramResult bank answers).mainType = some n →
      (percentOfKey (computeEnneagramResult bank answers).traits
          (toString (specLeftNeighbor n)) >
        percentOfKey (computeEnneagramResult bank answers).traits
          (toString (specRightNeighbor n)) →
        (computeEnneagramResult bank answers).wingType =
          some (toString (specLeftNeighbor n))) ∧
      (percentOfKey (computeEnneagramResult bank answers).traits
          (toString (specRightNeighbor n)) >
        percentOfKey (computeEnneagramResult bank answers).traits
          (toString (specLeftNeighbor n)) →
        (computeEnneagramResult bank answers).wingType =
          some (toString (specRightNeighbor n))) ∧
      ((computeEnneagramResult bank answers).wingType = none ↔
        (percentOfKey (computeEnneagramResult bank answers).traits
            (toString (specLeftNeighbor n)) = 0 ∧
          percentOfKey (computeEnneagramResult bank answers).traits
            (toString (specRightNeighbor n)) = 0))) := by
  have hmain : (computeEnneagramResult bank answers).mainType =
      specEnneagramMainType (computeEnneagramResult bank answers).traits :=
    enneagram_mainType_match _
  refine ⟨hmain, ?_, ?_⟩
  · -- the main type is always one of the nine keys, all of which parse
    have hks : ∀ k ∈ enneagramKeys, (keyToNumber k).isSome := by decide
    rw [hmain]
    unfold specEnneagramMainType
    cases hf : firstMaxBy (fun t => t.percent)
        (computeEnneagramResult bank answers).traits with
    | none =>
        have : (computeEnneagramResult bank answers).traits = [] :=
          firstMaxBy_eq_none _ _ hf
        exact absurd (congrArg List.length this) (by simp [computeEnneagramResult,
          enneagramKeys])
    | some m =>
        have hm := firstMaxBy_mem _ _ _ hf
        have htr : (computeEnneagramResult bank answers).traits =
            enneagramKeys.map (mkEnneagramTrait bank.interpretations
              (bank.questions.foldl (enneagramStep answers) (fun _ => 0, 0)).1
              (fun k => theoreticalMax bank k)) := rfl
        rw [htr] at hm
        rcases List.mem_map.mp hm with ⟨k, hk, rfl⟩
        exact hks k hk
  · intro n hn
    have hrange := keyToNumber_range _ _ hn
    have hw : (computeEnneagramResult bank answers).wingType =
        computeWingType (computeEnneagramResult bank answers).traits
          (computeEnneagramResult bank answers).mainType := rfl
    rw [hw]
    exact computeWingType_spec _ _ n hn hrange.1 hrange.2

/-- Witness for C4 at a concrete input: on `c4Bank` the main type is 1
(100%), and its left neighbour 9 (50%) beats its right neighbour 2 (0%),
so the wing is type 9. -/
theorem C4_witness :
    (computeEnneagramResult c4Bank c4Answers).wingType = some "9" := by
  have h := C4_enneagram_classifier c4Bank c4Answers
  have hmain : (computeEnneagramResult c4Bank c4Answers).mainType = "1" := by
    simp [computeEnneagramResult, c4Bank, c4Answers, mkEnneagramTrait,
      enneagramStep, answeredChoice, choiceAt, theoreticalMax, questionLocalMax,
      Choice.weight, lookup_eval, lookup_nil_q, enneagramKeys, enneagramLabel,
      JsValue.getField, sortDescBy, insertDescBy, jsRound]
    norm_num [insertDescBy]
  have hn : keyToNumber (computeEnneagramResult c4Bank c4Answers).mainType =
      some 1 := by
    rw [hmain]
    rfl
  have hLname : toString (specLeftNeighbor (1 : ℤ)) = "9" := rfl
  have hRname : toString (specRightNeighbor (1 : ℤ)) = "2" := rfl
  have hL : percentOfKey (computeEnneagramResult c4Bank c4Answers).traits "9" =
      50 := by
    simp [percentOfKey, computeEnneagramResult, c4Bank, c4Answers,
      mkEnneagramTrait, enneagramStep, answeredChoice, choiceAt, theoreticalMax,
      questionLocalMax, Choice.weight, lookup_eval, lookup_nil_q, enneagramKeys,
      enneagramLabel, JsValue.getField, jsRound]
    norm_num
  have hR : percentOfKey (computeEnneagramResult c4Bank c4Answers).traits "2" =
      0 := by
    simp [percentOfKey, computeEnneagramResult, c4Bank, c4Answers,
      mkEnneagramTrait, enneagramStep, answeredChoice, choiceAt, theoreticalMax,
      questionLocalMax, Choice.weight, lookup_eval, lookup_nil_q, enneagramKeys,
      enneagramLabel, JsValue.getField, jsRound]
  have h3 := (h.2.2 1 hn).1
  rw [hLname, hRname] at h3
  exact h3 (by rw [hL, hR]; norm_num)

set_option maxHeartbeats 1600000 in
theorem fpa_four (tR tY tB tG : TraitScore FPADimKey)
    (hR : tR.key = .R) (hY : tY.key = .Y) (hB : tB.key = .B)
    (hG : tG.key = .G) :
    (match (sortDescBy (fun t => t.percent) [tR, tY, tB, tG]).head? with
      | some t => t.key
      | none => FPADimKey.R) =
      specFpaDominant tR.percent tY.percent tB.percent tG.percent ∧
    ((sortDescBy (fun t => t.percent) [tR, tY, tB, tG]).get? 1).map
        (fun t => t.key) =
      some (specFpaSecondary tR.percent tY.percent tB.percent tG.percent) ∧
    fpaPercentOf [tR, tY, tB, tG] .R = tR.percent ∧
    fpaPercentOf [tR, tY, tB, tG] .Y = tY.percent ∧
    fpaPercentOf [tR, tY, tB, tG] .B = tB.percent ∧
    fpaPercentOf [tR, tY, tB, tG] .G = tG.percent := by
  obtain ⟨kR, lR, sR, pR⟩ := tR
  obtain ⟨kY, lY, sY, pY⟩ := tY
  obtain ⟨kB, lB, sB, pB⟩ := tB
  obtain ⟨kG, lG, sG, pG⟩ := tG
  cases hR
  cases hY
  cases hB
  cases hG
  refine ⟨?_, ?_, ?_, ?_, ?_, ?_⟩
  · by_cases c1 : pB ≥ pG <;> by_cases c2 : pY ≥ pB <;> by_cases c3 : pY ≥ pG <;>
      by_cases c4 : pR ≥ pY <;> by_cases c5 : pR ≥ pB <;> by_cases c6 : pR ≥ pG <;>
      simp [sortDescBy, insertDescBy, specFpaDominant, c1, c2, c3, c4, c5, c6] <;>
      omega
  · by_cases c1 : pB ≥ pG <;> by_cases c2 : pY ≥ pB <;> by_cases c3 : pY ≥ pG <;>
      by_cases c4 : pR ≥ pY <;> by_cases c5 : pR ≥ pB <;> by_cases c6 : pR ≥ pG <;>
      simp [sortDescBy, insertDescBy, specFpaSecondary, specFpaDominant,
        List.get?, c1, c2, c3, c4, c5, c6] <;>
      omega
  all_goals rfl

/-- Claim C7: the FPA classifier sorts the four trait scores descending by
percent with a stable sort; the top is the dominant colour and the second
the secondary colour, exact ties broken by the declaration order R, Y, B,
G (first-declared wins), so both are a deterministic function of the four
percents. -/
theorem C7_fpa_classifier (bank : QuestionBank) (answers : Answers) :
    (computeFpaResult bank answers).dominantColor =
      specFpaDominant
        (fpaPercentOf (computeFpaResult bank answers).traits .R)
        (fpaPercentOf (computeFpaResult bank answers).traits .Y)
        (fpaPercentOf (computeFpaResult bank answers).traits .B)
        (fpaPercentOf (computeFpaResult bank answers).traits .G) ∧
    (fpaSecondaryTrait (computeFpaResult bank answers)).map (fun t => t.key) =
      some (specFpaSecondary
        (fpaPercentOf (computeFpaResult bank answers).traits .R)
        (fpaPercentOf (computeFpaResult bank answers).traits .Y)
        (fpaPercentOf (computeFpaResult bank answers).traits .B)
        (fpaPercentOf (computeFpaResult bank answers).traits .G)) := by
  have h4 := fpa_four
    (mkFpaTrait (bank.questions.foldl (fpaStep answers) (fun _ => 0, 0)).1
      (fun k => theoreticalMax bank k.str) .R)
    (mkFpaTrait (bank.questions.foldl (fpaStep answers) (fun _ => 0, 0)).1
      (fun k => theoreticalMax bank k.str) .Y)
    (mkFpaTrait (bank.questions.foldl (fpaStep answers) (fun _ => 0, 0)).1
      (fun k => theoreticalMax bank k.str) .B)
    (mkFpaTrait (bank.questions.foldl (fpaStep answers) (fun _ => 0, 0)).1
      (fun k => theoreticalMax bank k.str) .G)
    rfl rfl rfl rfl
  obtain ⟨hdom, hsec, hpR, hpY, hpB, hpG⟩ := h4
  have htr : (computeFpaResult bank answers).traits =
      [mkFpaTrait (bank.questions.foldl (fpaStep answers) (fun _ => 0, 0)).1
        (fun k => theoreticalMax bank k.str) .R,
       mkFpaTrait (bank.questions.foldl (fpaStep answers) (fun _ => 0, 0)).1
        (fun k => theoreticalMax bank k.str) .Y,
       mkFpaTrait (bank.questions.foldl (fpaStep answers) (fun _ => 0, 0)).1
        (fun k => theoreticalMax bank k.str) .B,
       mkFpaTrait (bank.questions.foldl (fpaStep answers) (fun _ => 0, 0)).1
        (fun k => theoreticalMax bank k.str) .G] := rfl
  have hd : (computeFpaResult bank answers).dominantColor =
      (match (sortDescBy (fun t => t.percent)
          (computeFpaResult bank answers).traits).head? with
        | some t => t.key
        | none => FPADimKey.R) := rfl
  have hs : fpaSecondaryTrait (computeFpaResult bank answers) =
      (sortDescBy (fun t => t.percent)
        (computeFpaResult bank answers).traits).get? 1 := rfl
  rw [hd, hs, htr, hpR, hpY, hpB, hpG] at *
  exact ⟨hdom, hsec⟩

theorem parsePercentParam_range (params : Params) (name : String) (a : ℤ)
    (h : parsePercentParam params name = some a) : 0 ≤ a ∧ a ≤ 100 := by
  unfold parsePercentParam at h
  cases hp : params name with
  | none => rw [hp] at h; exact Option.noConfusion h
  | some n =>
      rw [hp] at h
      cases n with
      | finite q =>
          have h' : min 100 (max 0 (jsRound q)) = a := Option.some.inj h
          omega
      | nan => exact Option.noConfusion h
      | inf => exact Option.noConfusion h
      | negInf => exact Option.noConfusion h

theorem applyUrlPercents_eq (params : Params) (q : PairScore) :
    applyUrlPercents params q =
      match parsePercentParam params (pairParamNames q.key).1,
          parsePercentParam params (pairParamNames q.key).2 with
      | none, none => q
      | l, r =>
          { q with
            leftPercent := (normalizePairPercents l r).1,
            rightPercent := (normalizePairPercents l r).2,
            leftScore := ((normalizePairPercents l r).1 : ℚ),
            rightScore := ((normalizePairPercents l r).2 : ℚ) } := by
  simp only [applyUrlPercents]
  cases parsePercentParam params (pairParamNames q.key).1 <;>
    cases parsePercentParam params (pairParamNames q.key).2 <;> rfl

/-- Counterexample to claim C6 as stated: the placeholder Result decoded
from a shared link with `p_e=45&p_i=46` keeps both values verbatim (their
sum, 91, lies in the decoder's 90..110 tolerance window), so its EI pair
has leftPercent + rightPercent = 91, not 100. -/
theorem C6_counterexample :
    ¬ (∀ p ∈ (buildPlaceholderMbtiResult "INTJ" "INTJ" c6Params).pairScores,
        p.leftPercent + p.rightPercent = 100) := by
  intro hall
  have hEI : (⟨PairKey.EI, DimKey.E, DimKey.I, "外向 (E)", "内向 (I)",
      0, 0, 50, 50⟩ : PairScore) ∈ buildNeutralPairScores :=
    List.mem_map.mpr ⟨⟨.EI, .E, .I, "外向 (E)", "内向 (I)"⟩, by decide, rfl⟩
  have hBad := hall _ (List.mem_map.mpr ⟨_, hEI, rfl⟩)
  simp [applyUrlPercents, pairParamNames, parsePercentParam, c6Params,
    normalizePairPercents, clampPercentInt, jsRound] at hBad
  norm_num at hBad

/-- Claim C6 (amended): every PairScore produced by the MBTI scoring
pipeline satisfies leftPercent + rightPercent = 100 exactly; a PairScore
of a placeholder Result reconstructed from URL parameters also satisfies
it, except when both sides of the pair are present in the URL and their
parsed values sum within the decoder's 90..110 tolerance window, in which
case the two clamped values are carried verbatim (the sum equals their
sum, which may differ from 100). -/
theorem C6_amended (bank : QuestionBank) (answers : Answers)
    (bt dt : String) (params : Params) :
    (∀ p ∈ (computeMbtiResult bank answers).pairScores ++
        (computeMbtiResult bank answers).extendedPairScores,
      p.leftPercent + p.rightPercent = 100) ∧
    (∀ p ∈ (buildPlaceholderMbtiResult bt dt params).pairScores ++
        (buildPlaceholderMbtiResult bt dt params).extendedPairScores,
      p.leftPercent + p.rightPercent = 100 ∨
        ∃ a b : ℤ,
          parsePercentParam params (pairParamNames p.key).1 = some a ∧
          parsePercentParam params (pairParamNames p.key).2 = some b ∧
          90 ≤ a + b ∧ a + b ≤ 110 ∧ p.leftPercent = a ∧ p.rightPercent = b) := by
  constructor
  · intro p hp
    have hps : (computeMbtiResult bank answers).pairScores =
        corePairConfigs.map (mkPairScore (mbtiAccumulate bank answers).1) := rfl
    have heps : (computeMbtiResult bank answers).extendedPairScores =
        extendedPairConfigs.map (mkPairScore (mbtiAccumulate bank answers).1) := rfl
    rw [hps, heps, ← List.map_append] at hp
    rcases List.mem_map.mp hp with ⟨cfg, _, rfl⟩
    have := mkPairScore_complement (mbtiAccumulate bank answers).1 cfg
    omega
  · intro p hp
    have hps : (buildPlaceholderMbtiResult bt dt params).pairScores =
        buildNeutralPairScores.map (applyUrlPercents params) := rfl
    have heps : (buildPlaceholderMbtiResult bt dt params).extendedPairScores =
        buildNeutralExtendedPairScores.map (applyUrlPercents params) := rfl
    rw [hps, heps, ← List.map_append] at hp
    rcases List.mem_map.mp hp with ⟨q, hq, rfl⟩
    have hq100 : q.leftPercent + q.rightPercent = 100 := by
      rcases List.mem_append.mp hq with h | h <;>
        (rcases List.mem_map.mp h with ⟨cfg, _, rfl⟩; rfl)
    rw [applyUrlPercents_eq]
    cases hl : parsePercentParam params (pairParamNames q.key).1 with
    | none =>
        cases hr : parsePercentParam params (pairParamNames q.key).2 with
        | none =>
            left
            exact hq100
        | some b =>
            left
            show (normalizePairPercents none (some b)).1 +
              (normalizePairPercents none (some b)).2 = 100
            simp only [normalizePairPercents]
            omega
    | some a =>
        cases hr : parsePercentParam params (pairParamNames q.key).2 with
        | none =>
            left
            show (normalizePairPercents (some a) none).1 +
              (normalizePairPercents (some a) none).2 = 100
            simp only [normalizePairPercents]
            omega
        | some b =>
            by_cases hw : 90 ≤ a + b ∧ a + b ≤ 110
            · right
              have hra := parsePercentParam_range params _ a hl
              have hrb := parsePercentParam_range params _ b hr
              refine ⟨a, b, ?_, ?_, hw.1, hw.2, ?_, ?_⟩
              · exact hl
              · first | exact hr | rfl
              · show (normalizePairPercents (some a) (some b)).1 = a
                simp only [normalizePairPercents, if_pos hw, clampPercentInt]
                omega
              · show (normalizePairPercents (some a) (some b)).2 = b
                simp only [normalizePairPercents, if_pos hw, clampPercentInt]
                omega
            · left
              show (normalizePairPercents (some a) (some b)).1 +
                (normalizePairPercents (some a) (some b)).2 = 100
              simp only [normalizePairPercents, if_neg hw]
              omega

/-- Witness for the amended C6: the EI pair decoded from `p_e=45&p_i=46`
falls in the tolerance-window case with a = 45, b = 46. -/
theorem C6_witness :
    (applyUrlPercents c6Params
        ⟨PairKey.EI, DimKey.E, DimKey.I, "外向 (E)", "内向 (I)",
          0, 0, 50, 50⟩).leftPercent +
      (applyUrlPercents c6Params
        ⟨PairKey.EI, DimKey.E, DimKey.I, "外向 (E)", "内向 (I)",
          0, 0, 50, 50⟩).rightPercent = 100 ∨
    ∃ a b : ℤ,
      parsePercentParam c6Params
        (pairParamNames (applyUrlPercents c6Params
          ⟨PairKey.EI, DimKey.E, DimKey.I, "外向 (E)", "内向 (I)",
            0, 0, 50, 50⟩).key).1 = some a ∧
      parsePercentParam c6Params
        (pairParamNames (applyUrlPercents c6Params
          ⟨PairKey.EI, DimKey.E, DimKey.I, "外向 (E)", "内向 (I)",
            0, 0, 50, 50⟩).key).2 = some b ∧
      90 ≤ a + b ∧ a + b ≤ 110 ∧
      (applyUrlPercents c6Params
        ⟨PairKey.EI, DimKey.E, DimKey.I, "外向 (E)", "内向 (I)",
          0, 0, 50, 50⟩).leftPercent = a ∧
      (applyUrlPercents c6Params
        ⟨PairKey.EI, DimKey.E, DimKey.I, "外向 (E)", "内向 (I)",
          0, 0, 50, 50⟩).rightPercent = b := by
  have hEI : (⟨PairKey.EI, DimKey.E, DimKey.I, "外向 (E)", "内向 (I)",
      0, 0, 50, 50⟩ : PairScore) ∈ buildNeutralPairScores :=
    List.mem_map.mpr ⟨⟨.EI, .E, .I, "外向 (E)", "内向 (I)"⟩, by decide, rfl⟩
  exact (C6_amended w1Bank emptyAnswers "INTJ" "INTJ" c6Params).2 _
    (List.mem_append.mpr (Or.inl (List.mem_map.mpr ⟨_, hEI, rfl⟩)))

/-- Claim C8: submitting while `answeredCount < totalQuestions` invokes no
classifier and produces no new Result (the result state, answers and bank
are unchanged) and reports exactly the deficit
`totalQuestions - answeredCount` in the error message. -/
theorem C8_submission_gating (s : AppState) (bank : QuestionBank)
    (hb : s.questionBank = some bank)
    (hlt : s.answers.length < bank.questions.length) :
    (handleSubmit s).result = s.result ∧
    (handleSubmit s).answers = s.answers ∧
    (handleSubmit s).questionBank = s.questionBank ∧
    (handleSubmit s).submitError =
      some (incompleteMessage (bank.questions.length - s.answers.length)) := by
  unfold handleSubmit
  rw [hb]
  simp only [if_pos hlt]
  refine ⟨?_, ?_, ?_, ?_⟩ <;> trivial

/-- Witness for C8 at a concrete input: submitting the one-question
`c8Bank` with nothing answered changes neither result nor answers and
reports "1 question remaining". -/
theorem C8_witness :
    (handleSubmit c8State).result = c8State.result ∧
    (handleSubmit c8State).answers = c8State.answers ∧
    (handleSubmit c8State).questionBank = c8State.questionBank ∧
    (handleSubmit c8State).submitError = some (incompleteMessage 1) := by
  have h := C8_submission_gating c8State c8Bank rfl (by decide)
  exact ⟨h.1, h.2.1, h.2.2.1, h.2.2.2⟩

theorem string_append_ne_empty (a b : String) (ha : a ≠ "") : a ++ b ≠ "" := by
  intro h
  have hd : a.data ++ b.data = [] := by
    have := congrArg String.data h
    rwa [String.data_append] at this
  exact ha (String.ext (List.append_eq_nil.mp hd).1)

theorem validateChoices_ok (qid : String) (dims : List String) :
    ∀ (js : List JsValue) (j : ℕ) (cs : List Choice),
      validateChoices qid dims js j = .ok cs →
      cs.length = js.length ∧
      (∀ c ∈ cs, c.weights.map Prod.fst = dims) ∧
      (∀ k, k < js.length →
        ∃ cj choice, js.get? k = some cj ∧ cs.get? k = some choice ∧
          choice.weights =
            dims.map (fun d => (d, coerceWeight (cj.getField "weights") d))) := by
  intro js
  induction js with
  | nil =>
      intro j cs h
      have h' : (Except.ok [] : Except String (List Choice)) = .ok cs := h
      obtain rfl := (Except.ok.inj h').symm
      exact ⟨rfl, by simp, by simp⟩
  | cons c rest ih =>
      intro j cs h
      unfold validateChoices at h
      split at h
      · exact Except.noConfusion h
      · split at h
        · exact Except.noConfusion h
        · rename_i label hlabel
          split at h
          · exact Except.noConfusion h
          · -- success shape: map over the recursive call
            cases hrec : validateChoices qid dims rest (j + 1) with
            | error e =>
                rw [hrec] at h
                exact Except.noConfusion h
            | ok cs2 =>
                rw [hrec] at h
                have h' : (⟨label,
                    dims.map (fun dim =>
                      (dim, match (c.getField "weights").getField dim with
                            | .num (.finite q) => q
                            | _ => 0))⟩ : Choice) :: cs2 = cs :=
                  Except.ok.inj h
                obtain rfl := h'.symm
                obtain ⟨hlen, hmem, hidx⟩ := ih (j + 1) cs2 hrec
                refine ⟨by simp [hlen], ?_, ?_⟩
                · intro c' hc'
                  rcases List.mem_cons.mp hc' with rfl | hc'
                  · simp [Function.comp_def]
                  · exact hmem c' hc'
                · intro k hk
                  cases k with
                  | zero =>
                      refine ⟨c, _, rfl, rfl, ?_⟩
                      rfl
                  | succ k =>
                      have hk' : k < rest.length := by simpa using hk
                      obtain ⟨cj, choice, h1, h2, h3⟩ := hidx k hk'
                      exact ⟨cj, choice, h1, h2, h3⟩

theorem validateChoices_error_ne (qid : String) (dims : List String) :
    ∀ (js : List JsValue) (j : ℕ) (e : String),
      validateChoices qid dims js j = .error e → e ≠ "" := by
  intro js
  induction js with
  | nil =>
      intro j e h
      exact Except.noConfusion h
  | cons c rest ih =>
      intro j e h
      unfold validateChoices at h
      split at h
      · obtain rfl := (Except.error.inj h).symm
        repeat apply string_append_ne_empty
        decide
      · split at h
        · obtain rfl := (Except.error.inj h).symm
          repeat apply string_append_ne_empty
          decide
        · split at h
          · obtain rfl := (Except.error.inj h).symm
            repeat apply string_append_ne_empty
            decide
          · cases hrec : validateChoices qid dims rest (j + 1) with
            | error e2 =>
                rw [hrec] at h
                have h' : (Except.error e2 : Except String (List Choice)).map _ =
                    .error e := h
                have : e2 = e := Except.error.inj h'
                exact this ▸ ih (j + 1) e2 hrec
            | ok cs2 =>
                rw [hrec] at h
                exact Except.noConfusion h

theorem validateQuestions_ok (dims : List String) :
    ∀ (js : List JsValue) (i : ℕ) (qs : List Question),
      validateQuestions dims js i = .ok qs →
      qs.length = js.length ∧
      ∀ q ∈ qs, 2 ≤ q.choices.length ∧
        ∀ c ∈ q.choices, c.weights.map Prod.fst = dims := by
  intro js
  induction js with
  | nil =>
      intro i qs h
      have h' : (Except.ok [] : Except String (List Question)) = .ok qs := h
      obtain rfl := (Except.ok.inj h').symm
      exact ⟨rfl, by simp⟩
  | cons j rest ih =>
      intro i qs h
      unfold validateQuestions at h
      split at h
      · exact Except.noConfusion h
      · split at h
        · rename_i qid text hid htext
          split at h
          · rename_i choices hch
            split at h
            · exact Except.noConfusion h
            · rename_i hlen2
              cases hc : validateChoices qid dims choices 0 with
              | error e =>
                  rw [hc] at h
                  exact Except.noConfusion h
              | ok cs =>
                  rw [hc] at h
                  cases hrec : validateQuestions dims rest (i + 1) with
                  | error e =>
                      rw [hrec] at h
                      exact Except.noConfusion h
                  | ok qs2 =>
                      rw [hrec] at h
                      have h' : (⟨qid, text, cs⟩ : Question) :: qs2 = qs :=
                        Except.ok.inj h
                      obtain rfl := h'.symm
                      obtain ⟨hlen, hprops⟩ := ih (i + 1) qs2 hrec
                      obtain ⟨hclen, hcmem, _⟩ := validateChoices_ok qid dims choices 0 cs hc
                      refine ⟨by simp [hlen], ?_⟩
                      intro q hq
                      rcases List.mem_cons.mp hq with rfl | hq
                      · refine ⟨?_, ?_⟩
                        · simp only
                          omega
                        · intro c hcmem2
                          exact hcmem c hcmem2
                      · exact hprops q hq
          · exact Except.noConfusion h
        · exact Except.noConfusion h

theorem validateQuestions_error_ne (dims : List String) :
    ∀ (js : List JsValue) (i : ℕ) (e : String),
      validateQuestions dims js i = .error e → e ≠ "" := by
  intro js
  induction js with
  | nil =>
      intro i e h
      exact Except.noConfusion h
  | cons j rest ih =>
      intro i e h
      unfold validateQuestions at h
      split at h
      · obtain rfl := (Except.error.inj h).symm
        repeat apply string_append_ne_empty
        decide
      · split at h
        · rename_i qid text hid htext
          split at h
          · rename_i choices hch
            split at h
            · obtain rfl := (Except.error.inj h).symm
              repeat apply string_append_ne_empty
              decide
            · cases hc : validateChoices qid dims choices 0 with
              | error e2 =>
                  rw [hc] at h
                  have h' : e2 = e := Except.error.inj h
                  exact h' ▸ validateChoices_error_ne qid dims choices 0 e2 hc
              | ok cs =>
                  rw [hc] at h
                  cases hrec : validateQuestions dims rest (i + 1) with
                  | error e2 =>
                      rw [hrec] at h
                      have h' : e2 = e := Except.error.inj h
                      exact h' ▸ ih (i + 1) e2 hrec
                  | ok qs2 =>
                      rw [hrec] at h
                      exact Except.noConfusion h
          · obtain rfl := (Except.error.inj h).symm
            repeat apply string_append_ne_empty
            decide
        · obtain rfl := (Except.error.inj h).symm
          repeat apply string_append_ne_empty
          decide

theorem validateQuestionBank_ok (raw : JsValue) (bank : QuestionBank)
    (h : validateQuestionBank raw = .ok bank) :
    ∃ dims qs,
      raw.getField "dimensions" = JsValue.arr dims ∧
      raw.getField "questions" = JsValue.arr qs ∧
      bank.dimensions = dims.map jsToString ∧
      ((requiredDims bank.metadata.model).all
        (fun d => bank.dimensions.contains d)) = true ∧
      qs ≠ [] ∧
      validateQuestions bank.dimensions qs 0 = .ok bank.questions := by
  unfold validateQuestionBank at h
  split at h
  · exact Except.noConfusion h
  · split at h
    · exact Except.noConfusion h
    · split at h
      · rename_i title version htitle hversion
        split at h
        · exact Except.noConfusion h
        · rename_i language hlang
          split at h
          · exact Except.noConfusion h
          · rename_i rawModel hraw
            split at h
            · exact Except.noConfusion h
            · rename_i model hmodel
              split at h
              · rename_i dims hdims
                split at h
                · exact Except.noConfusion h
                · rename_i hall
                  split at h
                  · rename_i qs hqs
                    split at h
                    · exact Except.noConfusion h
                    · rename_i hne
                      cases hv : validateQuestions (dims.map jsToString) qs 0 with
                      | error e =>
                          rw [hv] at h
                          exact Except.noConfusion h
                      | ok qlist =>
                          rw [hv] at h
                          have hb := Except.ok.inj h
                          subst hb
                          refine ⟨dims, qs, hdims, hqs, rfl, ?_, ?_, hv⟩
                          · simpa using hall
                          · intro he
                            subst he
                            exact hne rfl
                  · exact Except.noConfusion h
              · exact Except.noConfusion h
      · exact Except.noConfusion h

/-- Claim C9: the validator returns a failure value (it is a total
function — malformed input is data, not an exception) for every top-level
non-object input, with the field-naming top-level message; a successful
validation is impossible for a bank missing a required dimension of its
model, an empty questions array, or a question with fewer than two
choices (success guarantees their negations); and every failure message is
non-empty. -/
theorem C9_validator_rejections :
    (∀ n : JsNum, validateQuestionBank (JsValue.num n) =
      .error "题库 JSON 顶层必须是对象") ∧
    (∀ s : String, validateQuestionBank (JsValue.str s) =
      .error "题库 JSON 顶层必须是对象") ∧
    (∀ b : Bool, validateQuestionBank (JsValue.bool b) =
      .error "题库 JSON 顶层必须是对象") ∧
    validateQuestionBank JsValue.null = .error "题库 JSON 顶层必须是对象" ∧
    validateQuestionBank JsValue.undefined = .error "题库 JSON 顶层必须是对象" ∧
    (∀ raw bank, validateQuestionBank raw = .ok bank →
      (∀ d ∈ requiredDims bank.metadata.model, d ∈ bank.dimensions) ∧
      bank.questions ≠ [] ∧
      (∀ q ∈ bank.questions, 2 ≤ q.choices.length)) ∧
    (∀ raw e, validateQuestionBank raw = .error e → e ≠ "") := by
  refine ⟨fun n => rfl, fun s => rfl, fun b => rfl, rfl, rfl, ?_, ?_⟩
  · intro raw bank h
    obtain ⟨dims, qs, hdims, hqs, hdimseq, hall, hqsne, hv⟩ :=
      validateQuestionBank_ok raw bank h
    obtain ⟨hlen, hprops⟩ :=
      validateQuestions_ok bank.dimensions qs 0 bank.questions hv
    refine ⟨?_, ?_, ?_⟩
    · intro d hd
      have hc := List.all_eq_true.mp hall d hd
      simpa using hc
    · intro hnil
      exact hqsne (List.length_eq_zero.mp (by rw [← hlen, hnil]; rfl))
    · intro q hq
      exact (hprops q hq).1
  · intro raw e h
    unfold validateQuestionBank at h
    split at h
    · obtain rfl := (Except.error.inj h).symm
      decide
    · split at h
      · obtain rfl := (Except.error.inj h).symm
        decide
      · split at h
        · rename_i title version htitle hversion
          split at h
          · obtain rfl := (Except.error.inj h).symm
            decide
          · rename_i language hlang
            split at h
            · obtain rfl := (Except.error.inj h).symm
              decide
            · rename_i rawModel hraw
              split at h
              · obtain rfl := (Except.error.inj h).symm
                apply string_append_ne_empty
                decide
              · rename_i model hmodel
                split at h
                · rename_i dims hdims
                  split at h
                  · obtain rfl := (Except.error.inj h).symm
                    cases model <;> decide
                  · rename_i hall
                    split at h
                    · rename_i qs hqs
                      split at h
                      · obtain rfl := (Except.error.inj h).symm
                        decide
                      · rename_i hne
                        cases hv : validateQuestions (dims.map jsToString) qs 0 with
                        | error e2 =>
                            rw [hv] at h
                            have he := Except.error.inj h
                            exact he ▸ validateQuestions_error_ne _ _ _ _ hv
                        | ok qlist =>
                            rw [hv] at h
                            exact Except.noConfusion h
                    · obtain rfl := (Except.error.inj h).symm
                      decide
                · obtain rfl := (Except.error.inj h).symm
                  decide
        · obtain rfl := (Except.error.inj h).symm
          decide

/-- Witness for C9 at concrete inputs: `null` is rejected with the
top-level message (which is non-empty), while the well-formed `c9Raw`
validates to a bank containing all required Big Five dimensions, a
non-empty question list and two choices per question. -/
theorem C9_witness :
    validateQuestionBank JsValue.null = .error "题库 JSON 顶层必须是对象" ∧
    (∀ d ∈ requiredDims c9Bank.metadata.model, d ∈ c9Bank.dimensions) ∧
    c9Bank.questions ≠ [] ∧
    (∀ q ∈ c9Bank.questions, 2 ≤ q.choices.length) ∧
    ("题库 JSON 顶层必须是对象" : String) ≠ "" := by
  have hval : validateQuestionBank c9Raw = .ok c9Bank := by
    simp [validateQuestionBank, c9Raw, c9Bank, validateQuestions,
      validateChoices, jsToString, requiredDims, modelOfString,
      JsValue.getField, JsValue.asString, JsValue.truthy,
      JsValue.typeofObject, JsValue.isNull, CORE_DIM_KEYS, DimKey.str,
      List.lookup, Except.map, Except.bind]
  have h := C9_validator_rejections
  have hok := h.2.2.2.2.2.1 c9Raw c9Bank hval
  exact ⟨h.2.2.2.1, hok.1, hok.2.1, hok.2.2,
    h.2.2.2.2.2.2 JsValue.null _ h.2.2.2.1⟩

/-- Counterexample to claim C10 as stated: validating `c10Raw` (a Big Five
bank declaring the extra dimension "Z") succeeds with `dimensions`
preserved as declared — six entries including "Z" — rather than fixed to
the canonical required set {O, C, E, A, N}, although Big Five supports no
extension dimensions. -/
theorem C10_counterexample :
    (validateQuestionBank c10Raw).map (fun b => b.dimensions) =
      .ok ["O", "C", "E", "A", "N", "Z"] ∧
    requiredDims PersonalityModel.BigFive = ["O", "C", "E", "A", "N"] ∧
    (["O", "C", "E", "A", "N", "Z"] : List String) ≠
      ["O", "C", "E", "A", "N"] := by
  have hval : validateQuestionBank c10Raw = .ok c10Bank := by
    simp [validateQuestionBank, c10Raw, c10Bank, validateQuestions,
      validateChoices, jsToString, requiredDims, modelOfString,
      JsValue.getField, JsValue.asString, JsValue.truthy,
      JsValue.typeofObject, JsValue.isNull, CORE_DIM_KEYS, DimKey.str,
      List.lookup, Except.map, Except.bind]
  refine ⟨?_, rfl, by decide⟩
  rw [hval]
  rfl

/-- Claim C10 (amended): on success the validator returns a QuestionBank
whose `dimensions` field preserves the declared dimensions exactly (each
coerced to a string), validated to include the model's required set; and
every choice's weight map is densely populated over those declared
dimension keys, each weight being the original value when it is a finite
number and 0 otherwise (absent, non-numeric, NaN and infinities never
propagate). -/
theorem C10_amended :
    (∀ raw bank, validateQuestionBank raw = .ok bank →
      (∃ dims, raw.getField "dimensions" = JsValue.arr dims ∧
        bank.dimensions = dims.map jsToString) ∧
      (∀ q ∈ bank.questions, ∀ c ∈ q.choices,
        c.weights.map Prod.fst = bank.dimensions)) ∧
    (∀ qid dims js j cs, validateChoices qid dims js j = .ok cs →
      cs.length = js.length ∧
      ∀ k, k < js.length →
        ∃ cj choice, js.get? k = some cj ∧ cs.get? k = some choice ∧
          choice.weights =
            dims.map (fun d => (d, coerceWeight (cj.getField "weights") d))) := by
  constructor
  · intro raw bank h
    obtain ⟨dims, qs, hdims, hqs, hdimseq, hall, hqsne, hv⟩ :=
      validateQuestionBank_ok raw bank h
    obtain ⟨hlen, hprops⟩ :=
      validateQuestions_ok bank.dimensions qs 0 bank.questions hv
    exact ⟨⟨dims, hdims, hdimseq⟩, fun q hq c hc => (hprops q hq).2 c hc⟩
  · intro qid dims js j cs h
    obtain ⟨h1, _, h3⟩ := validateChoices_ok qid dims js j cs h
    exact ⟨h1, h3⟩

/-- Witness for the amended C10 at a concrete input: `c10Raw` validates
with its six declared dimensions preserved and every weight map dense over
them. -/
theorem C10_witness :
    (∃ dims, c10Raw.getField "dimensions" = JsValue.arr dims ∧
      c10Bank.dimensions = dims.map jsToString) ∧
    (∀ q ∈ c10Bank.questions, ∀ c ∈ q.choices,
      c.weights.map Prod.fst = c10Bank.dimensions) := by
  have hval : validateQuestionBank c10Raw = .ok c10Bank := by
    simp [validateQuestionBank, c10Raw, c10Bank, validateQuestions,
      validateChoices, jsToString, requiredDims, modelOfString,
      JsValue.getField, JsValue.asString, JsValue.truthy,
      JsValue.typeofObject, JsValue.isNull, CORE_DIM_KEYS, DimKey.str,
      List.lookup, Except.map, Except.bind]
  exact C10_amended.1 c10Raw c10Bank hval

end MbtiApp
